import Mathlib

/-!
# Verification of the DHF data-resolution layer (pocket-dhf)

Shallow embedding of `src/app/data_utils.py` (class `DHFDataManager`) and of the
traceability route `api_user_needs_to_requirements` in `src/app/routes.py`.

Python's loosely typed YAML values are modelled by the inductive type `Val`
(strings, integers, lists, dicts as association lists preserving insertion
order).  Fallible Python operations (membership tests, indexing, attribute
access on the wrong type) are modelled in the `Except String` monad, where
`.error` stands for a raised Python exception; the error message strings are
documentation only.
-/

/-- A dynamically typed YAML/Python value: strings, non-negative integers,
lists and dicts (as insertion-ordered association lists). -/
inductive Val where
  | vstr  : String → Val
  | vnat  : Nat → Val
  | vlist : List Val → Val
  | vmap  : List (String × Val) → Val

/-- A loaded DHF document: the top-level YAML mapping. -/
abbrev Doc := List (String × Val)

/-- First-match association-list lookup, the semantics of `d[k]` / `k in d`
on a Python dict whose keys are unique. -/
def pyLookup : List (String × Val) → String → Option Val
  | [], _ => none
  | (k, v) :: rest, key => if k = key then some v else pyLookup rest key

/-- Python dict assignment `d[k] = v`: overwrite in place if the key exists,
else append (insertion order is preserved). -/
def setKey : List (String × Val) → String → Val → List (String × Val)
  | [], key, v => [(key, v)]
  | (k, w) :: rest, key, v =>
      if k = key then (k, v) :: rest else (k, w) :: setKey rest key v

/-- Python `del d[k]` (the key is unique in a dict, so deleting the first
occurrence is exact). -/
def delKey : List (String × Val) → String → List (String × Val)
  | [], _ => []
  | (k, v) :: rest, key => if k = key then rest else (k, v) :: delKey rest key

/-- `dict.update(patch)`: field-level merge, existing keys overwritten in
place, new keys appended in `patch` order. -/
def pyUpdateMap (orig patch : List (String × Val)) : List (String × Val) :=
  patch.foldl (fun acc kv => setKey acc kv.1 kv.2) orig

/-- Python `data.get(k, {})` on the top-level document. -/
def pyGetD (d : Doc) (k : String) : Val :=
  (pyLookup d k).getD (.vmap [])

/-- Python list membership of a string (`k in l` compares `k` by equality
with each element; a string equals only an equal string). -/
def listHasStr (l : List Val) (k : String) : Bool :=
  l.any fun v => match v with
    | .vstr s => s = k
    | _ => false

/-- Python membership test `k in v`.  On a dict it is key membership, on a
string a substring test, on a list element equality; on an integer it raises
`TypeError`. -/
def pyIn (k : String) : Val → Except String Bool
  | .vmap m => .ok (pyLookup m k).isSome
  | .vstr s => .ok (decide (k.data <:+: s.data))
  | .vlist l => .ok (listHasStr l k)
  | .vnat _ => .error "TypeError: argument of type int is not iterable"

/-- `isinstance(v, dict) and key in v` — the shape-detection idiom used by
the legacy/nested branches; never raises. -/
def isDictWithKey (key : String) : Val → Bool
  | .vmap m => (pyLookup m key).isSome
  | _ => false

/-- Calling `.items()` / `.values()` on a value: succeeds on dicts only
(`AttributeError` otherwise). -/
def asMap : Val → Except String (List (String × Val))
  | .vmap m => .ok m
  | _ => .error "AttributeError: object has no attribute items"

/-- `item.update(patch)`: merge on a dict, `AttributeError` otherwise. -/
def pyUpdate (v : Val) (patch : List (String × Val)) : Except String Val :=
  match v with
  | .vmap m => .ok (.vmap (pyUpdateMap m patch))
  | _ => .error "AttributeError: object has no attribute update"

/-! ## `DHFDataManager.get_item_by_id` (src/app/data_utils.py:105-159)

The search over `user_needs` and over `risks` shares one loop shape
(`searchFlat2`, parametrised by the nested-marker key `"needs"` / `"risks"`);
the product-requirements search handles 2-level vs 3-level groups, and the
two specification categories share `searchSpecs`. -/

/-- `any(isinstance(req, dict) and "requirements" in req for req in children)`:
the 3-level detection used for `product_requirements`. -/
def anyNestedReq (children : List (String × Val)) : Bool :=
  children.any fun p => isDictWithKey "requirements" p.2

/-- One category loop of `get_item_by_id` for `user_needs` / `risks`:
nested branch when the group is a dict containing `marker`, else the
legacy-flat comparison of the group key with the item id. -/
def searchFlat2 (marker id : String) : List (String × Val) → Except String (Option Val)
  | [] => .ok none
  | (gk, gv) :: rest =>
    match gv with
    | .vmap m =>
      match pyLookup m marker with
      | some (.vmap im) =>
          match pyLookup im id with
          | some item => .ok (some item)
          | none => searchFlat2 marker id rest
      | some inner =>
          -- `item_id in group_data[marker]` on a non-dict value; indexing it
          -- afterwards raises.
          match pyIn id inner with
          | .error e => .error e
          | .ok true => .error "TypeError: value is not subscriptable by str"
          | .ok false => searchFlat2 marker id rest
      | none =>
          if gk = id then .ok (some (.vmap m)) else searchFlat2 marker id rest
    | gv => if gk = id then .ok (some gv) else searchFlat2 marker id rest

/-- The inner 3-level loop of the product-requirements search:
`if "requirements" in sub_group and item_id in sub_group["requirements"]`. -/
def searchSubGroups (id : String) : List (String × Val) → Except String (Option Val)
  | [] => .ok none
  | (_, sg) :: rest =>
    match sg with
    | .vmap sm =>
      match pyLookup sm "requirements" with
      | some (.vmap rm) =>
          match pyLookup rm id with
          | some item => .ok (some item)
          | none => searchSubGroups id rest
      | some inner =>
          match pyIn id inner with
          | .error e => .error e
          | .ok true => .error "TypeError: value is not subscriptable by str"
          | .ok false => searchSubGroups id rest
      | none => searchSubGroups id rest
    | sg =>
      match pyIn "requirements" sg with
      | .error e => .error e
      | .ok true => .error "TypeError: value is not subscriptable by str"
      | .ok false => searchSubGroups id rest

/-- The product-requirements loop of `get_item_by_id`: detect 3-level groups
via `anyNestedReq`, else test membership in the direct `requirements` map. -/
def searchPR (id : String) : List (String × Val) → Except String (Option Val)
  | [] => .ok none
  | (_, g) :: rest =>
    match g with
    | .vmap gm =>
      match pyLookup gm "requirements" with
      | some (.vmap children) =>
          if anyNestedReq children then
            match searchSubGroups id children with
            | .error e => .error e
            | .ok (some item) => .ok (some item)
            | .ok none => searchPR id rest
          else
            match pyLookup children id with
            | some item => .ok (some item)
            | none => searchPR id rest
      | some _ =>
          -- `group["requirements"].values()` on a non-dict raises.
          .error "AttributeError: object has no attribute values"
      | none => searchPR id rest
    | g =>
      match pyIn "requirements" g with
      | .error e => .error e
      | .ok true => .error "TypeError: value is not subscriptable by str"
      | .ok false => searchPR id rest

/-- The software/hardware-specifications loop of `get_item_by_id`. -/
def searchSpecs (id : String) : List (String × Val) → Except String (Option Val)
  | [] => .ok none
  | (_, g) :: rest =>
    match g with
    | .vmap gm =>
      match pyLookup gm "specifications" with
      | some (.vmap sm) =>
          match pyLookup sm id with
          | some item => .ok (some item)
          | none => searchSpecs id rest
      | some inner =>
          match pyIn id inner with
          | .error e => .error e
          | .ok true => .error "TypeError: value is not subscriptable by str"
          | .ok false => searchSpecs id rest
      | none => searchSpecs id rest
    | g =>
      match pyIn "specifications" g with
      | .error e => .error e
      | .ok true => .error "TypeError: value is not subscriptable by str"
      | .ok false => searchSpecs id rest

/-- `DHFDataManager.get_item_by_id`: search the five categories in order,
returning the first structural match (`none` models Python's `None`). -/
def get_item_by_id (d : Doc) (id : String) : Except String (Option Val) :=
  match asMap (pyGetD d "user_needs") with
  | .error e => .error e
  | .ok un =>
  match searchFlat2 "needs" id un with
  | .error e => .error e
  | .ok (some item) => .ok (some item)
  | .ok none =>
  match asMap (pyGetD d "risks") with
  | .error e => .error e
  | .ok rk =>
  match searchFlat2 "risks" id rk with
  | .error e => .error e
  | .ok (some item) => .ok (some item)
  | .ok none =>
  match asMap (pyGetD d "product_requirements") with
  | .error e => .error e
  | .ok prs =>
  match searchPR id prs with
  | .error e => .error e
  | .ok (some item) => .ok (some item)
  | .ok none =>
  match asMap (pyGetD d "software_specifications") with
  | .error e => .error e
  | .ok sw =>
  match searchSpecs id sw with
  | .error e => .error e
  | .ok (some item) => .ok (some item)
  | .ok none =>
  match asMap (pyGetD d "hardware_specifications") with
  | .error e => .error e
  | .ok hw =>
  match searchSpecs id hw with
  | .error e => .error e
  | .ok (some item) => .ok (some item)
  | .ok none => .ok none

/-! ## `DHFDataManager.update_item` (src/app/data_utils.py:161-237)

The mutator re-implements the same structural search (independently of
`get_item_by_id`) and, at the first match, merges the patch into the item in
place; `some groups'` is the mutated category, `none` means fall-through. -/

/-- The `user_needs` / `risks` loop of `update_item`. -/
def updFlat2 (marker id : String) (patch : List (String × Val)) :
    List (String × Val) → Except String (Option (List (String × Val)))
  | [] => .ok none
  | (gk, gv) :: rest =>
    match gv with
    | .vmap m =>
      match pyLookup m marker with
      | some (.vmap im) =>
          match pyLookup im id with
          | some item =>
              match pyUpdate item patch with
              | .error e => .error e
              | .ok item' =>
                  .ok (some ((gk, .vmap (setKey m marker (.vmap (setKey im id item')))) :: rest))
          | none =>
              match updFlat2 marker id patch rest with
              | .error e => .error e
              | .ok r => .ok (r.map fun rest' => (gk, .vmap m) :: rest')
      | some inner =>
          match pyIn id inner with
          | .error e => .error e
          | .ok true => .error "TypeError: value is not subscriptable by str"
          | .ok false =>
              match updFlat2 marker id patch rest with
              | .error e => .error e
              | .ok r => .ok (r.map fun rest' => (gk, gv) :: rest')
      | none =>
          if gk = id then
            match pyUpdate (.vmap m) patch with
            | .error e => .error e
            | .ok g' => .ok (some ((gk, g') :: rest))
          else
            match updFlat2 marker id patch rest with
            | .error e => .error e
            | .ok r => .ok (r.map fun rest' => (gk, gv) :: rest')
    | gv =>
        if gk = id then
          -- legacy-flat match on a non-dict value: `.update` raises
          .error "AttributeError: object has no attribute update"
        else
          match updFlat2 marker id patch rest with
          | .error e => .error e
          | .ok r => .ok (r.map fun rest' => (gk, gv) :: rest')

/-- The inner 3-level loop of the product-requirements update. -/
def updSubGroups (id : String) (patch : List (String × Val)) :
    List (String × Val) → Except String (Option (List (String × Val)))
  | [] => .ok none
  | (sk, sg) :: rest =>
    match sg with
    | .vmap sm =>
      match pyLookup sm "requirements" with
      | some (.vmap rm) =>
          match pyLookup rm id with
          | some item =>
              match pyUpdate item patch with
              | .error e => .error e
              | .ok item' =>
                  .ok (some ((sk, .vmap (setKey sm "requirements" (.vmap (setKey rm id item')))) :: rest))
          | none =>
              match updSubGroups id patch rest with
              | .error e => .error e
              | .ok r => .ok (r.map fun rest' => (sk, sg) :: rest')
      | some inner =>
          match pyIn id inner with
          | .error e => .error e
          | .ok true => .error "TypeError: value is not subscriptable by str"
          | .ok false =>
              match updSubGroups id patch rest with
              | .error e => .error e
              | .ok r => .ok (r.map fun rest' => (sk, sg) :: rest')
      | none =>
          match updSubGroups id patch rest with
          | .error e => .error e
          | .ok r => .ok (r.map fun rest' => (sk, sg) :: rest')
    | sg =>
      match pyIn "requirements" sg with
      | .error e => .error e
      | .ok true => .error "TypeError: value is not subscriptable by str"
      | .ok false =>
          match updSubGroups id patch rest with
          | .error e => .error e
          | .ok r => .ok (r.map fun rest' => (sk, sg) :: rest')

/-- The product-requirements loop of `update_item`. -/
def updPR (id : String) (patch : List (String × Val)) :
    List (String × Val) → Except String (Option (List (String × Val)))
  | [] => .ok none
  | (gk, g) :: rest =>
    match g with
    | .vmap gm =>
      match pyLookup gm "requirements" with
      | some (.vmap children) =>
          if anyNestedReq children then
            match updSubGroups id patch children with
            | .error e => .error e
            | .ok (some children') =>
                .ok (some ((gk, .vmap (setKey gm "requirements" (.vmap children'))) :: rest))
            | .ok none =>
                match updPR id patch rest with
                | .error e => .error e
                | .ok r => .ok (r.map fun rest' => (gk, g) :: rest')
          else
            match pyLookup children id with
            | some item =>
                match pyUpdate item patch with
                | .error e => .error e
                | .ok item' =>
                    .ok (some ((gk, .vmap (setKey gm "requirements" (.vmap (setKey children id item')))) :: rest))
            | none =>
                match updPR id patch rest with
                | .error e => .error e
                | .ok r => .ok (r.map fun rest' => (gk, g) :: rest')
      | some _ => .error "AttributeError: object has no attribute values"
      | none =>
          match updPR id patch rest with
          | .error e => .error e
          | .ok r => .ok (r.map fun rest' => (gk, g) :: rest')
    | g =>
      match pyIn "requirements" g with
      | .error e => .error e
      | .ok true => .error "TypeError: value is not subscriptable by str"
      | .ok false =>
          match updPR id patch rest with
          | .error e => .error e
          | .ok r => .ok (r.map fun rest' => (gk, g) :: rest')

/-- The software/hardware-specifications loop of `update_item`. -/
def updSpecs (id : String) (patch : List (String × Val)) :
    List (String × Val) → Except String (Option (List (String × Val)))
  | [] => .ok none
  | (gk, g) :: rest =>
    match g with
    | .vmap gm =>
      match pyLookup gm "specifications" with
      | some (.vmap sm) =>
          match pyLookup sm id with
          | some item =>
              match pyUpdate item patch with
              | .error e => .error e
              | .ok item' =>
                  .ok (some ((gk, .vmap (setKey gm "specifications" (.vmap (setKey sm id item')))) :: rest))
          | none =>
              match updSpecs id patch rest with
              | .error e => .error e
              | .ok r => .ok (r.map fun rest' => (gk, g) :: rest')
      | some inner =>
          match pyIn id inner with
          | .error e => .error e
          | .ok true => .error "TypeError: value is not subscriptable by str"
          | .ok false =>
              match updSpecs id patch rest with
              | .error e => .error e
              | .ok r => .ok (r.map fun rest' => (gk, g) :: rest')
      | none =>
          match updSpecs id patch rest with
          | .error e => .error e
          | .ok r => .ok (r.map fun rest' => (gk, g) :: rest')
    | g =>
      match pyIn "specifications" g with
      | .error e => .error e
      | .ok true => .error "TypeError: value is not subscriptable by str"
      | .ok false =>
          match updSpecs id patch rest with
          | .error e => .error e
          | .ok r => .ok (r.map fun rest' => (gk, g) :: rest')

/-- `DHFDataManager.update_item`: the same category order as
`get_item_by_id`; on the first match the patch is merged into the item, the
document is saved, and `True` is returned (here: the updated document). -/
def update_item (d : Doc) (id : String) (patch : List (String × Val)) :
    Except String (Bool × Doc) :=
  match asMap (pyGetD d "user_needs") with
  | .error e => .error e
  | .ok un =>
  match updFlat2 "needs" id patch un with
  | .error e => .error e
  | .ok (some un') => .ok (true, setKey d "user_needs" (.vmap un'))
  | .ok none =>
  match asMap (pyGetD d "risks") with
  | .error e => .error e
  | .ok rk =>
  match updFlat2 "risks" id patch rk with
  | .error e => .error e
  | .ok (some rk') => .ok (true, setKey d "risks" (.vmap rk'))
  | .ok none =>
  match asMap (pyGetD d "product_requirements") with
  | .error e => .error e
  | .ok prs =>
  match updPR id patch prs with
  | .error e => .error e
  | .ok (some prs') => .ok (true, setKey d "product_requirements" (.vmap prs'))
  | .ok none =>
  match asMap (pyGetD d "software_specifications") with
  | .error e => .error e
  | .ok sw =>
  match updSpecs id patch sw with
  | .error e => .error e
  | .ok (some sw') => .ok (true, setKey d "software_specifications" (.vmap sw'))
  | .ok none =>
  match asMap (pyGetD d "hardware_specifications") with
  | .error e => .error e
  | .ok hw =>
  match updSpecs id patch hw with
  | .error e => .error e
  | .ok (some hw') => .ok (true, setKey d "hardware_specifications" (.vmap hw'))
  | .ok none => .ok (false, d)

/-! ## `DHFDataManager.get_risks_flat` (src/app/data_utils.py:61-83) -/

/-- `any(isinstance(group, dict) and "risks" in group for group in risks.values())`:
the grouped-shape detection. -/
def anyGroupHasRisks (gs : List (String × Val)) : Bool :=
  gs.any fun p => isDictWithKey "risks" p.2

/-- The flattening loop of `get_risks_flat`: grouped entries contribute their
inner `risks` pairs, anything else contributes its own key/value pair. -/
def flattenRisksAux (acc : List (String × Val)) :
    List (String × Val) → Except String (List (String × Val))
  | [] => .ok acc
  | (gk, gv) :: rest =>
    match gv with
    | .vmap m =>
      match pyLookup m "risks" with
      | some (.vmap rm) => flattenRisksAux (pyUpdateMap acc rm) rest
      | some _ => .error "AttributeError: object has no attribute items"
      | none => flattenRisksAux (setKey acc gk (.vmap m)) rest
    | gv => flattenRisksAux (setKey acc gk gv) rest

/-- `DHFDataManager.get_risks_flat`: return the stored mapping unchanged when
no group has a `risks` key (legacy flat), else flatten. -/
def get_risks_flat (d : Doc) : Except String (List (String × Val)) :=
  match asMap (pyGetD d "risks") with
  | .error e => .error e
  | .ok gs => if anyGroupHasRisks gs then flattenRisksAux [] gs else .ok gs

/-- Fully grouped risk storage: every group is a dict with a dict `risks`. -/
def allGroupedRisks (gs : List (String × Val)) : Bool :=
  gs.all fun p => match p.2 with
    | .vmap m =>
      match pyLookup m "risks" with
      | some (.vmap _) => true
      | _ => false
    | _ => false

/-- The `{risk_id: risk}` content of a fully grouped risks section, in
document order. -/
def flatOfGroups (gs : List (String × Val)) : List (String × Val) :=
  gs.foldr (fun p acc =>
    (match p.2 with
     | .vmap m =>
       match pyLookup m "risks" with
       | some (.vmap rm) => rm
       | _ => []
     | _ => []) ++ acc) []

/-! ## Document store (`load_data`/`save_data`, src/app/data_utils.py:24-46)

File I/O itself is outside the embedding; the write step's success is an
explicit boolean oracle.  `save_data` updates the `_data` cache only after a
successful write; a failed write raises (`ValueError`) and leaves the cache
untouched. -/

/-- The mutable state of a `DHFDataManager`: the in-memory cache. -/
structure DHFManagerState where
  cache : Option Doc

/-- `DHFDataManager.save_data`: attempt the file write (`writeOk` is the
outcome of `yaml.safe_dump` + file write); on success replace the cache, on
failure raise and keep the state. Returns the new state and the raised
error, if any. -/
def save_data (writeOk : Bool) (mgr : DHFManagerState) (d : Doc) :
    DHFManagerState × Option String :=
  if writeOk then ({ cache := some d }, none)
  else (mgr, some "ValueError: Failed to save data")

/-! ## Configuration-option CRUD (src/app/data_utils.py:405-467) -/

/-- Python `max(x :: l)`. -/
def pyMax (x : Int) (l : List Int) : Int := l.foldl max x

/-- Python `int(s)` restricted to plain optional-minus ASCII-digit
literals, on which it agrees exactly with `int()`.  Inputs `int()` also
accepts via surrounding whitespace, a leading `+`, underscore digit
grouping, or non-ASCII digits are conservatively mapped to `none`; the
theorems that rely on `parseInt` therefore carry hypotheses confining the
parsed strings to the plain-digit domain. -/
def parseInt (s : String) : Option Int :=
  match s.data with
  | [] => none
  | c :: cs =>
      if c = '-' then
        if cs.all Char.isDigit && !cs.isEmpty then
          some (-(cs.foldl (fun a ch => a * 10 + (ch.toNat - '0'.toNat)) 0 : Nat))
        else none
      else
        if (c :: cs).all Char.isDigit then
          some (((c :: cs).foldl (fun a ch => a * 10 + (ch.toNat - '0'.toNat)) 0 : Nat))
        else none

/-- The value of a digit string, as `int()` computes it. -/
def digitsVal (ds : List Char) : Nat :=
  ds.foldl (fun a ch => a * 10 + (ch.toNat - '0'.toNat)) 0

/-- The numeric suffixes `int(key[1:])` of the existing ids that start with
the prefix letter (unparsable suffixes are skipped). -/
def configNumbers (pfx : String) (mm : List (String × Val)) : List Int :=
  ((mm.map Prod.fst).filter fun k => pfx.data.isPrefixOf k.data).filterMap
    fun k => parseInt (String.mk (k.data.drop 1))

/-- `add_config_option`'s id computation: scan keys starting with the prefix
letter, parse `key[1:]`, take `max + 1` (1 when none parse). -/
def configNextId (pfx : String) (mm : List (String × Val)) : String :=
  match configNumbers pfx mm with
  | [] => pfx ++ toString (1 : Int)
  | n0 :: rest => pfx ++ toString (pyMax n0 rest + 1)

/-- The claim's id computation, formalised from the spec's words: the
prefix follows the stated id format (`S`, `PO`, `PH` per type), the
numeric suffix is the key minus the whole prefix, next id is max + 1
(1 when none exist).  For comparison with the code's `configNextId`. -/
def claimNextConfigId (pfx : String) (mm : List (String × Val)) : String :=
  match ((mm.map Prod.fst).filter fun k => pfx.data.isPrefixOf k.data).filterMap
      (fun k => parseInt (String.mk (k.data.drop pfx.length))) with
  | [] => pfx ++ toString (1 : Int)
  | n0 :: rest => pfx ++ toString (pyMax n0 rest + 1)

/-- `DHFDataManager.add_config_option`: the prefix is `"S"` for `severity`
and `"P"` for every other type.  A missing `configuration` section or
mapping is created; the new id maps to `{name, description}` with the
defaulted description. -/
def add_config_option (d : Doc) (ctype nm desc : String) :
    Except String (String × Doc) :=
  let mk := ctype ++ "_mapping"
  let pfx := if ctype = "severity" then "S" else "P"
  let entry : Val := .vmap [("name", .vstr nm),
    ("description", .vstr (if desc = "" then nm ++ " option for " ++ ctype else desc))]
  match (pyLookup d "configuration").getD (.vmap []) with
  | .vmap cm =>
      match pyLookup cm mk with
      | some (.vmap mm) =>
          let newId := configNextId pfx mm
          .ok (newId, setKey d "configuration"
            (.vmap (setKey cm mk (.vmap (setKey mm newId entry)))))
      | some _ => .error "AttributeError: object has no attribute keys"
      | none =>
          -- the two successive assignments `[mk] = {}` then `[newId] = entry`
          -- amount to storing the one-entry mapping
          let newId := configNextId pfx []
          .ok (newId, setKey d "configuration"
            (.vmap (setKey cm mk (.vmap [(newId, entry)]))))
  | _ => .error "TypeError: configuration section is not a mapping"

/-- The in-use scan at the top of `remove_config_option`: only the
`severity` and legacy `probability` types are checked, by comparing the
field of each *top-level* value of `risks` (a grouped document's groups have
no such field, so the check never fires for grouped storage). -/
def checkInUse (ctype oid : String) : List (String × Val) → Except String Bool
  | [] => .ok false
  | (_, rv) :: rest =>
    match rv with
    | .vmap rm =>
        if (ctype = "severity" &&
              match pyLookup rm "severity" with
              | some (.vstr s) => s = oid
              | _ => false)
            ||
           (ctype = "probability" &&
              match pyLookup rm "probability" with
              | some (.vstr s) => s = oid
              | _ => false) then
          .ok true
        else checkInUse ctype oid rest
    | _ =>
        if ctype = "severity" || ctype = "probability" then
          .error "AttributeError: object has no attribute get"
        else checkInUse ctype oid rest

/-- `DHFDataManager.remove_config_option`. -/
def remove_config_option (d : Doc) (ctype oid : String) :
    Except String (Bool × Doc) :=
  let mk := ctype ++ "_mapping"
  match asMap (pyGetD d "risks") with
  | .error e => .error e
  | .ok rgs =>
  match checkInUse ctype oid rgs with
  | .error e => .error e
  | .ok true => .ok (false, d)
  | .ok false =>
  match pyLookup d "configuration" with
  | none => .ok (false, d)
  | some (.vmap cm) =>
      match pyLookup cm mk with
      | none => .ok (false, d)
      | some (.vmap mm) =>
          match pyLookup mm oid with
          | none => .ok (false, d)
          | some _ =>
              .ok (true, setKey d "configuration"
                (.vmap (setKey cm mk (.vmap (delKey mm oid)))))
      | some inner =>
          match pyIn oid inner with
          | .error e => .error e
          | .ok false => .ok (false, d)
          | .ok true => .error "TypeError: cannot delete from non-dict"
  | some conf =>
      match pyIn mk conf with
      | .error e => .error e
      | .ok false => .ok (false, d)
      | .ok true => .error "TypeError: value is not subscriptable by str"

/-! ## `DHFDataManager.calculate_rbm_score` (src/app/data_utils.py:524-543) -/

/-- Python `str.replace(pat, "")` on character lists: remove every
(leftmost, non-overlapping) occurrence of `pat`.  The fuel is the input
length; each step consumes at least one character, so it never runs out. -/
def listReplaceFuel (pat : List Char) : Nat → List Char → List Char
  | _, [] => []
  | 0, l => l
  | n + 1, c :: rest =>
      if pat.isPrefixOf (c :: rest) then listReplaceFuel pat n ((c :: rest).drop pat.length)
      else c :: listReplaceFuel pat n rest

/-- `s.replace(pat, "")`. -/
def pyReplaceAll (s pat : String) : String :=
  ⟨listReplaceFuel pat.data s.data.length s.data⟩

/-- One factor of the RBM score:
`int(s.replace(pre, "")) if s.startswith(pre) else 1` — `int()` raises on a
non-numeric remainder. -/
def rbmComponent (pre s : String) : Except String Int :=
  if pre.data.isPrefixOf s.data then
    match parseInt (pyReplaceAll s pre) with
    | some n => .ok n
    | none => .error "ValueError: invalid literal for int"
  else .ok 1

/-- `DHFDataManager.calculate_rbm_score`:
occurrence x harm x severity, each factor from `rbmComponent`. -/
def calculate_rbm_score (po ph sv : String) : Except String Int :=
  match rbmComponent "PO" po with
  | .error e => .error e
  | .ok a =>
  match rbmComponent "PH" ph with
  | .error e => .error e
  | .ok b =>
  match rbmComponent "S" sv with
  | .error e => .error e
  | .ok c => .ok (a * b * c)

/-- The claim's reading of the scores, for comparison with the code
(formalised from the spec: "each value extracted from the *trailing digits*
of its ID string, defaulting to 1 if the prefix does not match"). -/
def claimRbmValue (pre s : String) : Option Int :=
  if pre.data.isPrefixOf s.data then
    let ds := (s.data.reverse.takeWhile Char.isDigit).reverse
    if ds.isEmpty then none else some (digitsVal ds)
  else some 1

/-- The claim's score formula: the product of the three trailing-digit
values. -/
def claimRbmScore (po ph sv : String) : Option Int :=
  match claimRbmValue "PO" po, claimRbmValue "PH" ph, claimRbmValue "S" sv with
  | some a, some b, some c => some (a * b * c)
  | _, _, _ => none

/-! ## Leaf enumeration for product requirements (claims C1, C4, C9) -/

/-- The leaves reachable by the 3-level branch: for each sub-group that is a
dict with a dict `requirements`, its entries, in stored order. -/
def subLeaves (children : List (String × Val)) : List (String × Val) :=
  children.foldr (fun p acc =>
    (match p.2 with
     | .vmap sm =>
       match pyLookup sm "requirements" with
       | some (.vmap rm) => rm
       | _ => []
     | _ => []) ++ acc) []

/-- The leaf requirements a single product-requirements group exposes to the
searches: the direct entries for a 2-level group, the sub-group entries for
a 3-level group, nothing otherwise. -/
def groupLeaves (g : Val) : List (String × Val) :=
  match g with
  | .vmap gm =>
    match pyLookup gm "requirements" with
    | some (.vmap children) =>
        if anyNestedReq children then subLeaves children else children
    | _ => []
  | _ => []

/-- All leaf product requirements of the category, in document order. -/
def prLeaves (gs : List (String × Val)) : List (String × Val) :=
  gs.foldr (fun p acc => groupLeaves p.2 ++ acc) []

/-- A sub-group the 3-level loops can traverse without raising: a dict
whose `requirements` value, when present, is a dict. -/
def wfSubGroup : Val → Bool
  | .vmap sm =>
    match pyLookup sm "requirements" with
    | none => true
    | some (.vmap _) => true
    | some _ => false
  | _ => false

/-- Sub-groups that the 3-level loops can traverse without raising. -/
def wfSubGroups (children : List (String × Val)) : Bool :=
  children.all fun p => wfSubGroup p.2

/-- A product-requirements group the loops can traverse without raising. -/
def wfPRGroup (g : Val) : Bool :=
  match g with
  | .vmap gm =>
    match pyLookup gm "requirements" with
    | none => true
    | some (.vmap children) =>
        if anyNestedReq children then wfSubGroups children else true
    | some _ => false
  | _ => false

/-- A raise-free product-requirements section. -/
def wfPRGroups (gs : List (String × Val)) : Bool := gs.all fun p => wfPRGroup p.2

/-- `user_needs`/`risks` groups the loops can traverse without raising for
any id: arbitrary non-dict entries are fine (legacy comparison only), but a
dict group's marker value must be a dict. -/
def wfFlat2Group (marker : String) : Val → Bool
  | .vmap m =>
    match pyLookup m marker with
    | none => true
    | some (.vmap _) => true
    | some _ => false
  | _ => true

/-- A raise-free `user_needs`/`risks` section. -/
def wfFlat2Groups (marker : String) (gs : List (String × Val)) : Bool :=
  gs.all fun p => wfFlat2Group marker p.2

/-- Specification groups the loops can traverse without raising: each group
must be a dict whose `specifications` value, when present, is a dict. -/
def wfSpecGroup : Val → Bool
  | .vmap m =>
    match pyLookup m "specifications" with
    | none => true
    | some (.vmap _) => true
    | some _ => false
  | _ => false

/-- A raise-free specifications section. -/
def wfSpecGroups (gs : List (String × Val)) : Bool :=
  gs.all fun p => wfSpecGroup p.2

/-- A document on which `get_item_by_id` can never raise (any category may
be absent; `user_needs`/`risks` group entries may be arbitrary values). -/
def wfDoc (d : Doc) : Bool :=
  (match pyGetD d "user_needs" with
   | .vmap gs => wfFlat2Groups "needs" gs
   | _ => false) &&
  (match pyGetD d "risks" with
   | .vmap gs => wfFlat2Groups "risks" gs
   | _ => false) &&
  (match pyGetD d "product_requirements" with
   | .vmap gs => wfPRGroups gs
   | _ => false) &&
  (match pyGetD d "software_specifications" with
   | .vmap gs => wfSpecGroups gs
   | _ => false) &&
  (match pyGetD d "hardware_specifications" with
   | .vmap gs => wfSpecGroups gs
   | _ => false)

/-! ## `api_user_needs_to_requirements` (src/app/routes.py:1183-1291) -/

/-- One traceability row as built by the route: the user-need id/title and
the linked requirements as `(id, title)` pairs. -/
structure TraceEntry where
  needId : String
  needTitle : Val
  reqs : List (String × Val)

/-- The 2-level requirement scan: collect `(req_id, title)` for every
requirement whose `linked_user_needs` (default `[]`) contains the need id. -/
def collectLinked (needId : String) :
    List (String × Val) → Except String (List (String × Val))
  | [] => .ok []
  | (rid, req) :: rest =>
    match req with
    | .vmap rm =>
      match pyIn needId ((pyLookup rm "linked_user_needs").getD (.vlist [])) with
      | .error e => .error e
      | .ok true =>
          match collectLinked needId rest with
          | .error e => .error e
          | .ok tail => .ok ((rid, (pyLookup rm "title").getD (.vstr "Untitled")) :: tail)
      | .ok false => collectLinked needId rest
    | _ => .error "AttributeError: object has no attribute get"

/-- The 3-level requirement scan over sub-groups. -/
def collectLinkedSub (needId : String) :
    List (String × Val) → Except String (List (String × Val))
  | [] => .ok []
  | (_, sg) :: rest =>
    match sg with
    | .vmap sm =>
      match pyLookup sm "requirements" with
      | none => collectLinkedSub needId rest
      | some (.vmap rm) =>
          match collectLinked needId rm with
          | .error e => .error e
          | .ok here =>
              match collectLinkedSub needId rest with
              | .error e => .error e
              | .ok tail => .ok (here ++ tail)
      | some _ => .error "AttributeError: object has no attribute items"
    | sg =>
      match pyIn "requirements" sg with
      | .error e => .error e
      | .ok true => .error "TypeError: value is not subscriptable by str"
      | .ok false => collectLinkedSub needId rest

/-- The full product-requirements scan of the route, per group (same
2-level/3-level detection as the resolver). -/
def linkedReqsGroups (needId : String) :
    List (String × Val) → Except String (List (String × Val))
  | [] => .ok []
  | (_, g) :: rest =>
    match g with
    | .vmap gm =>
      match pyLookup gm "requirements" with
      | none => linkedReqsGroups needId rest
      | some (.vmap children) =>
          match (if anyNestedReq children then collectLinkedSub needId children
                 else collectLinked needId children) with
          | .error e => .error e
          | .ok here =>
              match linkedReqsGroups needId rest with
              | .error e => .error e
              | .ok tail => .ok (here ++ tail)
      | some _ => .error "AttributeError: object has no attribute values"
    | g =>
      match pyIn "requirements" g with
      | .error e => .error e
      | .ok true => .error "TypeError: value is not subscriptable by str"
      | .ok false => linkedReqsGroups needId rest

/-- Build the entry for one user need: scan all product requirements, then
read the need's title. -/
def needEntry (d : Doc) (needId : String) (needVal : Val) :
    Except String TraceEntry :=
  match asMap (pyGetD d "product_requirements") with
  | .error e => .error e
  | .ok prs =>
  match linkedReqsGroups needId prs with
  | .error e => .error e
  | .ok reqs =>
  match needVal with
  | .vmap nm => .ok ⟨needId, (pyLookup nm "title").getD (.vstr "Untitled"), reqs⟩
  | _ => .error "AttributeError: object has no attribute get"

/-- The nested-group inner loop: one entry per need, in stored order. -/
def entriesForNeeds (d : Doc) :
    List (String × Val) → Except String (List TraceEntry)
  | [] => .ok []
  | (nid, nv) :: rest =>
    match needEntry d nid nv with
    | .error e => .error e
    | .ok e1 =>
        match entriesForNeeds d rest with
        | .error e => .error e
        | .ok tail => .ok (e1 :: tail)

/-- The outer loop over `user_needs` groups: nested groups contribute one
entry per inner need, legacy-flat entries contribute one entry keyed by the
group key. -/
def unToReqEntries (d : Doc) :
    List (String × Val) → Except String (List TraceEntry)
  | [] => .ok []
  | (gk, gv) :: rest =>
    match gv with
    | .vmap m =>
      match pyLookup m "needs" with
      | some (.vmap needs) =>
          match entriesForNeeds d needs with
          | .error e => .error e
          | .ok here =>
              match unToReqEntries d rest with
              | .error e => .error e
              | .ok tail => .ok (here ++ tail)
      | some _ => .error "AttributeError: object has no attribute items"
      | none =>
          match needEntry d gk (.vmap m) with
          | .error e => .error e
          | .ok e1 =>
              match unToReqEntries d rest with
              | .error e => .error e
              | .ok tail => .ok (e1 :: tail)
    | gv =>
        match needEntry d gk gv with
        | .error e => .error e
        | .ok e1 =>
            match unToReqEntries d rest with
            | .error e => .error e
            | .ok tail => .ok (e1 :: tail)

/-- `api_user_needs_to_requirements` (routes.py): the traceability rows for
every user need, in document order. -/
def api_user_needs_to_requirements (d : Doc) : Except String (List TraceEntry) :=
  match asMap (pyGetD d "user_needs") with
  | .error e => .error e
  | .ok un => unToReqEntries d un

/-! ## Lockstep lemmas: the two independently written searches agree -/


/-- Relation between one `update_item` category step and the corresponding
`get_item_by_id` step for the `user_needs`/`risks` loop: fall-through agrees,
and a successful update found a dict item whose merged form is found again
after the update (provided the patch does not introduce the nested marker
key). -/
def Flat2Rel (marker id : String) (patch : List (String × Val))
    (gs : List (String × Val)) (r : Option (List (String × Val))) : Prop :=
  (r = none → searchFlat2 marker id gs = .ok none) ∧
  (∀ gs', r = some gs' →
    ∃ i, searchFlat2 marker id gs = .ok (some (.vmap i)) ∧
      (marker ∉ patch.map Prod.fst →
        searchFlat2 marker id gs' = .ok (some (.vmap (pyUpdateMap i patch)))))

/-- Lockstep relation for the inner 3-level product-requirements loop. -/
def SubRel (id : String) (patch : List (String × Val))
    (sgs : List (String × Val)) (r : Option (List (String × Val))) : Prop :=
  (r = none → searchSubGroups id sgs = .ok none) ∧
  (∀ sgs', r = some sgs' →
    ∃ i, searchSubGroups id sgs = .ok (some (.vmap i)) ∧
      searchSubGroups id sgs' = .ok (some (.vmap (pyUpdateMap i patch))) ∧
      anyNestedReq sgs' = true)

/-- Lockstep relation for the product-requirements loop. -/
def PRRel (id : String) (patch : List (String × Val))
    (gs : List (String × Val)) (r : Option (List (String × Val))) : Prop :=
  (r = none → searchPR id gs = .ok none) ∧
  (∀ gs', r = some gs' →
    ∃ i, searchPR id gs = .ok (some (.vmap i)) ∧
      ("requirements" ∉ patch.map Prod.fst →
        searchPR id gs' = .ok (some (.vmap (pyUpdateMap i patch)))))

/-- Lockstep relation for the specification loops. -/
def SpecsRel (id : String) (patch : List (String × Val))
    (gs : List (String × Val)) (r : Option (List (String × Val))) : Prop :=
  (r = none → searchSpecs id gs = .ok none) ∧
  (∀ gs', r = some gs' →
    ∃ i, searchSpecs id gs = .ok (some (.vmap i)) ∧
      searchSpecs id gs' = .ok (some (.vmap (pyUpdateMap i patch))))

/-- The shape under which the RBM id parsing is exact: either the id is the
prefix followed by a non-empty digit string (value = those digits), or it
does not start with the prefix (value = 1). -/
def RbmWellFormed (pre s : String) (v : Int) : Prop :=
  (∃ ds, s.data = pre.data ++ ds ∧ ds ≠ [] ∧ ds.all Char.isDigit = true ∧
    v = digitsVal ds) ∨
  (pre.data.isPrefixOf s.data = false ∧ v = 1)

theorem pyLookup_setKey_self (m : List (String × Val)) (k : String) (v : Val) :
    pyLookup (setKey m k v) k = some v := by
  induction m with
  | nil => simp [setKey, pyLookup]
  | cons p rest ih =>
      obtain ⟨k', w⟩ := p
      by_cases h : k' = k <;> simp [setKey, pyLookup, h, ih]

theorem pyLookup_setKey_other (m : List (String × Val)) (k k' : String) (v : Val)
    (h : k' ≠ k) : pyLookup (setKey m k v) k' = pyLookup m k' := by
  induction m with
  | nil =>
      have h' : ¬ (k = k') := fun hh => h hh.symm
      simp [setKey, pyLookup, h']
  | cons p rest ih =>
      obtain ⟨k0, w⟩ := p
      by_cases h0 : k0 = k
      · subst h0
        have h' : ¬ (k0 = k') := fun hh => h (by rw [← hh])
        simp [setKey, pyLookup, h']
      · by_cases h1 : k0 = k'
        · subst h1
          have h' : ¬ (k0 = k) := h0
          simp [setKey, pyLookup, h']
        · simp [setKey, pyLookup, h0, h1, ih]

theorem pyLookup_pyUpdateMap_not_mem (m patch : List (String × Val)) (k : String)
    (h : k ∉ patch.map Prod.fst) :
    pyLookup (pyUpdateMap m patch) k = pyLookup m k := by
  induction patch generalizing m with
  | nil => rfl
  | cons p rest ih =>
      obtain ⟨pk, pv⟩ := p
      simp only [List.map_cons, List.mem_cons] at h
      push_neg at h
      have step : pyUpdateMap m ((pk, pv) :: rest) = pyUpdateMap (setKey m pk pv) rest := rfl
      rw [step, ih _ h.2, pyLookup_setKey_other _ _ _ _ h.1]

theorem pyLookup_eq_none_iff (m : List (String × Val)) (k : String) :
    pyLookup m k = none ↔ k ∉ m.map Prod.fst := by
  induction m with
  | nil => simp [pyLookup]
  | cons p rest ih =>
      obtain ⟨k0, v0⟩ := p
      by_cases h : k0 = k
      · subst h; simp [pyLookup]
      · have h' : ¬ (k = k0) := fun hh => h hh.symm
        simp only [pyLookup, if_neg h, List.map_cons, List.mem_cons]
        rw [ih]
        constructor
        · intro hh; exact fun hc => hc.elim (fun he => h' he) hh
        · intro hh; exact fun hc => hh (Or.inr hc)

theorem pyLookup_isSome_iff (m : List (String × Val)) (k : String) :
    (pyLookup m k).isSome ↔ k ∈ m.map Prod.fst := by
  rw [Option.isSome_iff_ne_none, Ne, pyLookup_eq_none_iff, not_not]

theorem pyLookup_of_mem_nodup (m : List (String × Val)) (k : String) (v : Val)
    (hm : (k, v) ∈ m) (hd : (m.map Prod.fst).Nodup) : pyLookup m k = some v := by
  induction m with
  | nil => cases hm
  | cons p rest ih =>
      obtain ⟨k0, v0⟩ := p
      simp only [List.map_cons, List.nodup_cons] at hd
      rcases List.mem_cons.mp hm with h | h
      · rw [Prod.mk.injEq] at h
        simp [pyLookup, h.1, h.2]
      · have hk : k0 ≠ k := by
          intro hh; subst hh
          exact hd.1 (List.mem_map.mpr ⟨(k0, v), h, rfl⟩)
        simp [pyLookup, hk, ih h hd.2]

theorem pyLookup_pyUpdateMap_of_patch (m patch : List (String × Val)) (k : String) (v : Val)
    (hd : (patch.map Prod.fst).Nodup) (hp : pyLookup patch k = some v) :
    pyLookup (pyUpdateMap m patch) k = some v := by
  induction patch generalizing m with
  | nil => cases hp
  | cons p rest ih =>
      obtain ⟨pk, pv⟩ := p
      simp only [List.map_cons, List.nodup_cons] at hd
      have step : pyUpdateMap m ((pk, pv) :: rest) = pyUpdateMap (setKey m pk pv) rest := rfl
      by_cases h : pk = k
      · subst h
        have hv : v = pv := by
          simp [pyLookup] at hp; exact hp.symm
        subst hv
        have hnot : pk ∉ rest.map Prod.fst := hd.1
        rw [step, pyLookup_pyUpdateMap_not_mem _ _ _ hnot, pyLookup_setKey_self]
      · have hrest : pyLookup rest k = some v := by
          simpa [pyLookup, h] using hp
        rw [step, ih (setKey m pk pv) hd.2 hrest]

theorem pyLookup_pyUpdateMap_of_none (m patch : List (String × Val)) (k : String)
    (hp : pyLookup patch k = none) :
    pyLookup (pyUpdateMap m patch) k = pyLookup m k :=
  pyLookup_pyUpdateMap_not_mem m patch k ((pyLookup_eq_none_iff patch k).mp hp)

theorem flat2_fall_step (marker id : String) (patch : List (String × Val))
    (gk : String) (gv : Val) (rest : List (String × Val))
    (r : Option (List (String × Val)))
    (hupd : updFlat2 marker id patch ((gk, gv) :: rest)
      = match updFlat2 marker id patch rest with
        | .error e => .error e
        | .ok r0 => .ok (r0.map fun rest' => (gk, gv) :: rest'))
    (hsearch : ∀ tail, searchFlat2 marker id ((gk, gv) :: tail) = searchFlat2 marker id tail)
    (h : updFlat2 marker id patch ((gk, gv) :: rest) = .ok r)
    (ih : ∀ r0, updFlat2 marker id patch rest = .ok r0 → Flat2Rel marker id patch rest r0) :
    Flat2Rel marker id patch ((gk, gv) :: rest) r := by
  rw [hupd] at h
  cases hr : updFlat2 marker id patch rest with
  | error e => rw [hr] at h; cases h
  | ok r0 =>
      rw [hr] at h
      have hmap : r = r0.map fun rest' => (gk, gv) :: rest' := by
        cases h; rfl
      obtain ⟨ihn, ihs⟩ := ih r0 hr
      constructor
      · intro hre
        subst hre
        have : r0 = none := by
          cases r0 with
          | none => rfl
          | some _ => simp at hmap
        rw [hsearch, ihn this]
      · intro gs' hre
        subst hre
        cases r0 with
        | none => simp at hmap
        | some rest' =>
            have hgs' : gs' = (gk, gv) :: rest' := by
              simp at hmap; exact hmap
            obtain ⟨i, h1, h2⟩ := ihs rest' rfl
            refine ⟨i, by rw [hsearch]; exact h1, ?_⟩
            intro hc
            rw [hgs', hsearch, h2 hc]

theorem updFlat2_rel (marker id : String) (patch : List (String × Val)) :
    ∀ gs r, updFlat2 marker id patch gs = .ok r → Flat2Rel marker id patch gs r := by
  intro gs
  induction gs with
  | nil =>
      intro r h
      have : r = none := by cases h; rfl
      subst this
      exact ⟨fun _ => rfl, fun gs' hre => by cases hre⟩
  | cons p rest ih =>
      obtain ⟨gk, gv⟩ := p
      intro r h
      cases gv with
      | vmap m =>
          cases hm : pyLookup m marker with
          | some inner =>
              cases inner with
              | vmap im =>
                  cases hi : pyLookup im id with
                  | some item =>
                      cases item with
                      | vmap i =>
                          simp only [updFlat2, hm, hi, pyUpdate] at h
                          have hr : r = some ((gk, .vmap (setKey m marker
                              (.vmap (setKey im id (.vmap (pyUpdateMap i patch)))))) :: rest) := by
                            cases h; rfl
                          subst hr
                          constructor
                          · intro hre; cases hre
                          · intro gs' hre
                            have hgs' : gs' = (gk, .vmap (setKey m marker
                                (.vmap (setKey im id (.vmap (pyUpdateMap i patch)))))) :: rest := by
                              cases hre; rfl
                            subst hgs'
                            refine ⟨i, ?_, ?_⟩
                            · simp only [searchFlat2, hm, hi]
                            · intro _
                              simp only [searchFlat2, pyLookup_setKey_self]
                      | vstr s =>
                          exfalso; simp only [updFlat2, hm, hi, pyUpdate] at h; cases h
                      | vnat n =>
                          exfalso; simp only [updFlat2, hm, hi, pyUpdate] at h; cases h
                      | vlist l =>
                          exfalso; simp only [updFlat2, hm, hi, pyUpdate] at h; cases h
                  | none =>
                      exact flat2_fall_step marker id patch gk (.vmap m) rest r
                        (by simp only [updFlat2, hm, hi])
                        (fun tail => by simp only [searchFlat2, hm, hi]) h ih
              | vstr s =>
                  cases hb : pyIn id (.vstr s) with
                  | error e => exfalso; simp only [updFlat2, hm, hb] at h; cases h
                  | ok b =>
                      cases b with
                      | true => exfalso; simp only [updFlat2, hm, hb] at h; cases h
                      | false =>
                          exact flat2_fall_step marker id patch gk (.vmap m) rest r
                            (by simp only [updFlat2, hm, hb])
                            (fun tail => by simp only [searchFlat2, hm, hb]) h ih
              | vnat n =>
                  exfalso; simp only [updFlat2, hm, pyIn] at h; cases h
              | vlist l =>
                  cases hb : pyIn id (.vlist l) with
                  | error e => exfalso; simp only [updFlat2, hm, hb] at h; cases h
                  | ok b =>
                      cases b with
                      | true => exfalso; simp only [updFlat2, hm, hb] at h; cases h
                      | false =>
                          exact flat2_fall_step marker id patch gk (.vmap m) rest r
                            (by simp only [updFlat2, hm, hb])
                            (fun tail => by simp only [searchFlat2, hm, hb]) h ih
          | none =>
              by_cases hk : gk = id
              · simp only [updFlat2, hm, if_pos hk, pyUpdate] at h
                have hr : r = some ((gk, .vmap (pyUpdateMap m patch)) :: rest) := by
                  cases h; rfl
                subst hr
                constructor
                · intro hre; cases hre
                · intro gs' hre
                  have hgs' : gs' = (gk, .vmap (pyUpdateMap m patch)) :: rest := by
                    cases hre; rfl
                  subst hgs'
                  refine ⟨m, ?_, ?_⟩
                  · simp only [searchFlat2, hm, if_pos hk]
                  · intro hc
                    simp only [searchFlat2, pyLookup_pyUpdateMap_not_mem m patch marker hc, hm,
                      if_pos hk]
              · exact flat2_fall_step marker id patch gk (.vmap m) rest r
                  (by simp only [updFlat2, hm, if_neg hk])
                  (fun tail => by simp only [searchFlat2, hm, if_neg hk]) h ih
      | vstr s =>
          by_cases hk : gk = id
          · exfalso; simp only [updFlat2, if_pos hk] at h; cases h
          · exact flat2_fall_step marker id patch gk (.vstr s) rest r
              (by simp only [updFlat2, if_neg hk])
              (fun tail => by simp only [searchFlat2, if_neg hk]) h ih
      | vnat n =>
          by_cases hk : gk = id
          · exfalso; simp only [updFlat2, if_pos hk] at h; cases h
          · exact flat2_fall_step marker id patch gk (.vnat n) rest r
              (by simp only [updFlat2, if_neg hk])
              (fun tail => by simp only [searchFlat2, if_neg hk]) h ih
      | vlist l =>
          by_cases hk : gk = id
          · exfalso; simp only [updFlat2, if_pos hk] at h; cases h
          · exact flat2_fall_step marker id patch gk (.vlist l) rest r
              (by simp only [updFlat2, if_neg hk])
              (fun tail => by simp only [searchFlat2, if_neg hk]) h ih

theorem pyLookup_mem (m : List (String × Val)) (k : String) (v : Val)
    (h : pyLookup m k = some v) : (k, v) ∈ m := by
  induction m with
  | nil => cases h
  | cons p rest ih =>
      obtain ⟨k0, v0⟩ := p
      by_cases hk : k0 = k
      · subst hk
        have h' : some v0 = some v := by simpa [pyLookup] using h
        cases h'
        exact List.mem_cons_self _ _
      · simp only [pyLookup, if_neg hk] at h
        exact List.mem_cons_of_mem _ (ih h)

theorem anyNestedReq_false_of_mem (children : List (String × Val))
    (han : anyNestedReq children = false) (p : String × Val) (hp : p ∈ children) :
    isDictWithKey "requirements" p.2 = false := by
  have := List.any_eq_false.mp han p hp
  simpa using this

theorem anyNestedReq_setKey_false (children : List (String × Val)) (k : String) (v : Val)
    (han : anyNestedReq children = false) (hv : isDictWithKey "requirements" v = false) :
    anyNestedReq (setKey children k v) = false := by
  induction children with
  | nil => simpa [setKey, anyNestedReq] using hv
  | cons p rest ih =>
      obtain ⟨k0, v0⟩ := p
      simp only [anyNestedReq, List.any_cons, Bool.or_eq_false_iff] at han
      by_cases hk : k0 = k
      · simp [setKey, hk, anyNestedReq, List.any_cons, hv, han.2]
      · simp only [setKey, if_neg hk, anyNestedReq, List.any_cons, han.1, Bool.false_or]
        exact ih han.2

theorem sub_fall_step (id : String) (patch : List (String × Val))
    (sk : String) (sg : Val) (rest : List (String × Val))
    (r : Option (List (String × Val)))
    (hupd : updSubGroups id patch ((sk, sg) :: rest)
      = match updSubGroups id patch rest with
        | .error e => .error e
        | .ok r0 => .ok (r0.map fun rest' => (sk, sg) :: rest'))
    (hsearch : ∀ tail, searchSubGroups id ((sk, sg) :: tail) = searchSubGroups id tail)
    (h : updSubGroups id patch ((sk, sg) :: rest) = .ok r)
    (ih : ∀ r0, updSubGroups id patch rest = .ok r0 → SubRel id patch rest r0) :
    SubRel id patch ((sk, sg) :: rest) r := by
  rw [hupd] at h
  cases hr : updSubGroups id patch rest with
  | error e => rw [hr] at h; cases h
  | ok r0 =>
      rw [hr] at h
      have hmap : r = r0.map fun rest' => (sk, sg) :: rest' := by
        cases h; rfl
      obtain ⟨ihn, ihs⟩ := ih r0 hr
      constructor
      · intro hre
        subst hre
        have : r0 = none := by
          cases r0 with
          | none => rfl
          | some _ => simp at hmap
        rw [hsearch, ihn this]
      · intro sgs' hre
        subst hre
        cases r0 with
        | none => simp at hmap
        | some rest' =>
            have hgs' : sgs' = (sk, sg) :: rest' := by
              simp at hmap; exact hmap
            obtain ⟨i, h1, h2, h3⟩ := ihs rest' rfl
            refine ⟨i, by rw [hsearch]; exact h1, ?_, ?_⟩
            · rw [hgs', hsearch, h2]
            · rw [hgs']
              simp [anyNestedReq, List.any_cons] at h3 ⊢
              exact Or.inr h3

theorem updSubGroups_rel (id : String) (patch : List (String × Val)) :
    ∀ sgs r, updSubGroups id patch sgs = .ok r → SubRel id patch sgs r := by
  intro sgs
  induction sgs with
  | nil =>
      intro r h
      have : r = none := by cases h; rfl
      subst this
      exact ⟨fun _ => rfl, fun sgs' hre => by cases hre⟩
  | cons p rest ih =>
      obtain ⟨sk, sg⟩ := p
      intro r h
      cases sg with
      | vmap sm =>
          cases hq : pyLookup sm "requirements" with
          | some inner =>
              cases inner with
              | vmap rm =>
                  cases hi : pyLookup rm id with
                  | some item =>
                      cases item with
                      | vmap i =>
                          simp only [updSubGroups, hq, hi, pyUpdate] at h
                          have hr : r = some ((sk, .vmap (setKey sm "requirements"
                              (.vmap (setKey rm id (.vmap (pyUpdateMap i patch)))))) :: rest) := by
                            cases h; rfl
                          subst hr
                          constructor
                          · intro hre; cases hre
                          intro sgs' hre
                          have hgs' : sgs' = (sk, .vmap (setKey sm "requirements"
                              (.vmap (setKey rm id (.vmap (pyUpdateMap i patch)))))) :: rest := by
                            cases hre; rfl
                          subst hgs'
                          refine ⟨i, ?_, ?_, ?_⟩
                          · simp only [searchSubGroups, hq, hi]
                          · simp only [searchSubGroups, pyLookup_setKey_self]
                          · simp [anyNestedReq, List.any_cons, isDictWithKey,
                              pyLookup_setKey_self]
                      | vstr s =>
                          exfalso; simp only [updSubGroups, hq, hi, pyUpdate] at h; cases h
                      | vnat n =>
                          exfalso; simp only [updSubGroups, hq, hi, pyUpdate] at h; cases h
                      | vlist l =>
                          exfalso; simp only [updSubGroups, hq, hi, pyUpdate] at h; cases h
                  | none =>
                      exact sub_fall_step id patch sk (.vmap sm) rest r
                        (by simp only [updSubGroups, hq, hi])
                        (fun tail => by simp only [searchSubGroups, hq, hi]) h ih
              | vstr s =>
                  cases hb : pyIn id (.vstr s) with
                  | error e => exfalso; simp only [updSubGroups, hq, hb] at h; cases h
                  | ok b =>
                      cases b with
                      | true => exfalso; simp only [updSubGroups, hq, hb] at h; cases h
                      | false =>
                          exact sub_fall_step id patch sk (.vmap sm) rest r
                            (by simp only [updSubGroups, hq, hb])
                            (fun tail => by simp only [searchSubGroups, hq, hb]) h ih
              | vnat n =>
                  exfalso; simp only [updSubGroups, hq, pyIn] at h; cases h
              | vlist l =>
                  cases hb : pyIn id (.vlist l) with
                  | error e => exfalso; simp only [updSubGroups, hq, hb] at h; cases h
                  | ok b =>
                      cases b with
                      | true => exfalso; simp only [updSubGroups, hq, hb] at h; cases h
                      | false =>
                          exact sub_fall_step id patch sk (.vmap sm) rest r
                            (by simp only [updSubGroups, hq, hb])
                            (fun tail => by simp only [searchSubGroups, hq, hb]) h ih
          | none =>
              exact sub_fall_step id patch sk (.vmap sm) rest r
                (by simp only [updSubGroups, hq])
                (fun tail => by simp only [searchSubGroups, hq]) h ih
      | vstr s =>
          cases hb : pyIn "requirements" (.vstr s) with
          | error e => exfalso; simp only [updSubGroups, hb] at h; cases h
          | ok b =>
              cases b with
              | true => exfalso; simp only [updSubGroups, hb] at h; cases h
              | false =>
                  exact sub_fall_step id patch sk (.vstr s) rest r
                    (by simp only [updSubGroups, hb])
                    (fun tail => by simp only [searchSubGroups, hb]) h ih
      | vnat n =>
          exfalso; simp only [updSubGroups, pyIn] at h; cases h
      | vlist l =>
          cases hb : pyIn "requirements" (.vlist l) with
          | error e => exfalso; simp only [updSubGroups, hb] at h; cases h
          | ok b =>
              cases b with
              | true => exfalso; simp only [updSubGroups, hb] at h; cases h
              | false =>
                  exact sub_fall_step id patch sk (.vlist l) rest r
                    (by simp only [updSubGroups, hb])
                    (fun tail => by simp only [searchSubGroups, hb]) h ih

theorem pr_fall_step (id : String) (patch : List (String × Val))
    (gk : String) (g : Val) (rest : List (String × Val))
    (r : Option (List (String × Val)))
    (hupd : updPR id patch ((gk, g) :: rest)
      = match updPR id patch rest with
        | .error e => .error e
        | .ok r0 => .ok (r0.map fun rest' => (gk, g) :: rest'))
    (hsearch : ∀ tail, searchPR id ((gk, g) :: tail) = searchPR id tail)
    (h : updPR id patch ((gk, g) :: rest) = .ok r)
    (ih : ∀ r0, updPR id patch rest = .ok r0 → PRRel id patch rest r0) :
    PRRel id patch ((gk, g) :: rest) r := by
  rw [hupd] at h
  cases hr : updPR id patch rest with
  | error e => rw [hr] at h; cases h
  | ok r0 =>
      rw [hr] at h
      have hmap : r = r0.map fun rest' => (gk, g) :: rest' := by
        cases h; rfl
      obtain ⟨ihn, ihs⟩ := ih r0 hr
      constructor
      · intro hre
        subst hre
        have : r0 = none := by
          cases r0 with
          | none => rfl
          | some _ => simp at hmap
        rw [hsearch, ihn this]
      · intro gs' hre
        subst hre
        cases r0 with
        | none => simp at hmap
        | some rest' =>
            have hgs' : gs' = (gk, g) :: rest' := by
              simp at hmap; exact hmap
            obtain ⟨i, h1, h2⟩ := ihs rest' rfl
            refine ⟨i, by rw [hsearch]; exact h1, ?_⟩
            intro hc
            rw [hgs', hsearch, h2 hc]

theorem updPR_rel (id : String) (patch : List (String × Val)) :
    ∀ gs r, updPR id patch gs = .ok r → PRRel id patch gs r := by
  intro gs
  induction gs with
  | nil =>
      intro r h
      have : r = none := by cases h; rfl
      subst this
      exact ⟨fun _ => rfl, fun gs' hre => by cases hre⟩
  | cons p rest ih =>
      obtain ⟨gk, g⟩ := p
      intro r h
      cases g with
      | vmap gm =>
          cases hq : pyLookup gm "requirements" with
          | some inner =>
              cases inner with
              | vmap children =>
                  cases han : anyNestedReq children with
                  | true =>
                      cases hs : updSubGroups id patch children with
                      | error e =>
                          exfalso
                          simp only [updPR, hq, han, if_pos, hs] at h
                          cases h
                      | ok rsub =>
                          cases rsub with
                          | some children' =>
                              simp only [updPR, hq, han, if_pos, hs] at h
                              have hr : r = some ((gk, .vmap (setKey gm "requirements"
                                  (.vmap children'))) :: rest) := by
                                cases h; rfl
                              subst hr
                              obtain ⟨_, hsub⟩ := updSubGroups_rel id patch children _ hs
                              obtain ⟨i, s1, s2, s3⟩ := hsub children' rfl
                              constructor
                              · intro hre; cases hre
                              intro gs' hre
                              have hgs' : gs' = (gk, .vmap (setKey gm "requirements"
                                  (.vmap children'))) :: rest := by
                                cases hre; rfl
                              subst hgs'
                              refine ⟨i, ?_, ?_⟩
                              · simp only [searchPR, hq, han, if_pos, s1]
                              · intro _
                                simp only [searchPR, pyLookup_setKey_self, s3, if_pos, s2]
                          | none =>
                              have hnone : searchSubGroups id children = .ok none :=
                                (updSubGroups_rel id patch children _ hs).1 rfl
                              exact pr_fall_step id patch gk (.vmap gm) rest r
                                (by simp only [updPR, hq, han, if_pos, hs])
                                (fun tail => by
                                  simp only [searchPR, hq, han, if_pos, hnone]) h ih
                  | false =>
                      cases hi : pyLookup children id with
                      | some item =>
                          cases item with
                          | vmap i =>
                              simp only [updPR, hq, han, hi, pyUpdate, Bool.false_eq_true,
                                if_false] at h
                              have hr : r = some ((gk, .vmap (setKey gm "requirements"
                                  (.vmap (setKey children id
                                    (.vmap (pyUpdateMap i patch)))))) :: rest) := by
                                cases h; rfl
                              subst hr
                              constructor
                              · intro hre; cases hre
                              intro gs' hre
                              have hgs' : gs' = (gk, .vmap (setKey gm "requirements"
                                  (.vmap (setKey children id
                                    (.vmap (pyUpdateMap i patch)))))) :: rest := by
                                cases hre; rfl
                              subst hgs'
                              refine ⟨i, ?_, ?_⟩
                              · simp only [searchPR, hq, han, Bool.false_eq_true, if_false, hi]
                              · intro hc
                                have hitem : isDictWithKey "requirements" (.vmap i) = false :=
                                  anyNestedReq_false_of_mem children han (id, .vmap i)
                                    (pyLookup_mem children id (.vmap i) hi)
                                have hmerged : isDictWithKey "requirements"
                                    (.vmap (pyUpdateMap i patch)) = false := by
                                  simp only [isDictWithKey,
                                    pyLookup_pyUpdateMap_not_mem i patch _ hc]
                                  simpa [isDictWithKey] using hitem
                                have han' : anyNestedReq (setKey children id
                                    (.vmap (pyUpdateMap i patch))) = false :=
                                  anyNestedReq_setKey_false children id _ han hmerged
                                simp only [searchPR, pyLookup_setKey_self, han',
                                  Bool.false_eq_true, if_false]
                          | vstr s =>
                              exfalso
                              simp only [updPR, hq, han, hi, pyUpdate, Bool.false_eq_true,
                                if_false] at h
                              cases h
                          | vnat n =>
                              exfalso
                              simp only [updPR, hq, han, hi, pyUpdate, Bool.false_eq_true,
                                if_false] at h
                              cases h
                          | vlist l =>
                              exfalso
                              simp only [updPR, hq, han, hi, pyUpdate, Bool.false_eq_true,
                                if_false] at h
                              cases h
                      | none =>
                          exact pr_fall_step id patch gk (.vmap gm) rest r
                            (by simp only [updPR, hq, han, Bool.false_eq_true, if_false, hi])
                            (fun tail => by
                              simp only [searchPR, hq, han, Bool.false_eq_true, if_false, hi])
                            h ih
              | vstr s => exfalso; simp only [updPR, hq] at h; cases h
              | vnat n => exfalso; simp only [updPR, hq] at h; cases h
              | vlist l => exfalso; simp only [updPR, hq] at h; cases h
          | none =>
              exact pr_fall_step id patch gk (.vmap gm) rest r
                (by simp only [updPR, hq])
                (fun tail => by simp only [searchPR, hq]) h ih
      | vstr s =>
          cases hb : pyIn "requirements" (.vstr s) with
          | error e => exfalso; simp only [updPR, hb] at h; cases h
          | ok b =>
              cases b with
              | true => exfalso; simp only [updPR, hb] at h; cases h
              | false =>
                  exact pr_fall_step id patch gk (.vstr s) rest r
                    (by simp only [updPR, hb])
                    (fun tail => by simp only [searchPR, hb]) h ih
      | vnat n =>
          exfalso; simp only [updPR, pyIn] at h; cases h
      | vlist l =>
          cases hb : pyIn "requirements" (.vlist l) with
          | error e => exfalso; simp only [updPR, hb] at h; cases h
          | ok b =>
              cases b with
              | true => exfalso; simp only [updPR, hb] at h; cases h
              | false =>
                  exact pr_fall_step id patch gk (.vlist l) rest r
                    (by simp only [updPR, hb])
                    (fun tail => by simp only [searchPR, hb]) h ih

theorem specs_fall_step (id : String) (patch : List (String × Val))
    (gk : String) (g : Val) (rest : List (String × Val))
    (r : Option (List (String × Val)))
    (hupd : updSpecs id patch ((gk, g) :: rest)
      = match updSpecs id patch rest with
        | .error e => .error e
        | .ok r0 => .ok (r0.map fun rest' => (gk, g) :: rest'))
    (hsearch : ∀ tail, searchSpecs id ((gk, g) :: tail) = searchSpecs id tail)
    (h : updSpecs id patch ((gk, g) :: rest) = .ok r)
    (ih : ∀ r0, updSpecs id patch rest = .ok r0 → SpecsRel id patch rest r0) :
    SpecsRel id patch ((gk, g) :: rest) r := by
  rw [hupd] at h
  cases hr : updSpecs id patch rest with
  | error e => rw [hr] at h; cases h
  | ok r0 =>
      rw [hr] at h
      have hmap : r = r0.map fun rest' => (gk, g) :: rest' := by
        cases h; rfl
      obtain ⟨ihn, ihs⟩ := ih r0 hr
      constructor
      · intro hre
        subst hre
        have : r0 = none := by
          cases r0 with
          | none => rfl
          | some _ => simp at hmap
        rw [hsearch, ihn this]
      · intro gs' hre
        subst hre
        cases r0 with
        | none => simp at hmap
        | some rest' =>
            have hgs' : gs' = (gk, g) :: rest' := by
              simp at hmap; exact hmap
            obtain ⟨i, h1, h2⟩ := ihs rest' rfl
            exact ⟨i, by rw [hsearch]; exact h1, by rw [hgs', hsearch, h2]⟩

theorem updSpecs_rel (id : String) (patch : List (String × Val)) :
    ∀ gs r, updSpecs id patch gs = .ok r → SpecsRel id patch gs r := by
  intro gs
  induction gs with
  | nil =>
      intro r h
      have : r = none := by cases h; rfl
      subst this
      exact ⟨fun _ => rfl, fun gs' hre => by cases hre⟩
  | cons p rest ih =>
      obtain ⟨gk, g⟩ := p
      intro r h
      cases g with
      | vmap gm =>
          cases hq : pyLookup gm "specifications" with
          | some inner =>
              cases inner with
              | vmap sm =>
                  cases hi : pyLookup sm id with
                  | some item =>
                      cases item with
                      | vmap i =>
                          simp only [updSpecs, hq, hi, pyUpdate] at h
                          have hr : r = some ((gk, .vmap (setKey gm "specifications"
                              (.vmap (setKey sm id (.vmap (pyUpdateMap i patch)))))) :: rest) := by
                            cases h; rfl
                          subst hr
                          constructor
                          · intro hre; cases hre
                          intro gs' hre
                          have hgs' : gs' = (gk, .vmap (setKey gm "specifications"
                              (.vmap (setKey sm id (.vmap (pyUpdateMap i patch)))))) :: rest := by
                            cases hre; rfl
                          subst hgs'
                          refine ⟨i, ?_, ?_⟩
                          · simp only [searchSpecs, hq, hi]
                          · simp only [searchSpecs, pyLookup_setKey_self]
                      | vstr s =>
                          exfalso; simp only [updSpecs, hq, hi, pyUpdate] at h; cases h
                      | vnat n =>
                          exfalso; simp only [updSpecs, hq, hi, pyUpdate] at h; cases h
                      | vlist l =>
                          exfalso; simp only [updSpecs, hq, hi, pyUpdate] at h; cases h
                  | none =>
                      exact specs_fall_step id patch gk (.vmap gm) rest r
                        (by simp only [updSpecs, hq, hi])
                        (fun tail => by simp only [searchSpecs, hq, hi]) h ih
              | vstr s =>
                  cases hb : pyIn id (.vstr s) with
                  | error e => exfalso; simp only [updSpecs, hq, hb] at h; cases h
                  | ok b =>
                      cases b with
                      | true => exfalso; simp only [updSpecs, hq, hb] at h; cases h
                      | false =>
                          exact specs_fall_step id patch gk (.vmap gm) rest r
                            (by simp only [updSpecs, hq, hb])
                            (fun tail => by simp only [searchSpecs, hq, hb]) h ih
              | vnat n =>
                  exfalso; simp only [updSpecs, hq, pyIn] at h; cases h
              | vlist l =>
                  cases hb : pyIn id (.vlist l) with
                  | error e => exfalso; simp only [updSpecs, hq, hb] at h; cases h
                  | ok b =>
                      cases b with
                      | true => exfalso; simp only [updSpecs, hq, hb] at h; cases h
                      | false =>
                          exact specs_fall_step id patch gk (.vmap gm) rest r
                            (by simp only [updSpecs, hq, hb])
                            (fun tail => by simp only [searchSpecs, hq, hb]) h ih
          | none =>
              exact specs_fall_step id patch gk (.vmap gm) rest r
                (by simp only [updSpecs, hq])
                (fun tail => by simp only [searchSpecs, hq]) h ih
      | vstr s =>
          cases hb : pyIn "specifications" (.vstr s) with
          | error e => exfalso; simp only [updSpecs, hb] at h; cases h
          | ok b =>
              cases b with
              | true => exfalso; simp only [updSpecs, hb] at h; cases h
              | false =>
                  exact specs_fall_step id patch gk (.vstr s) rest r
                    (by simp only [updSpecs, hb])
                    (fun tail => by simp only [searchSpecs, hb]) h ih
      | vnat n =>
          exfalso; simp only [updSpecs, pyIn] at h; cases h
      | vlist l =>
          cases hb : pyIn "specifications" (.vlist l) with
          | error e => exfalso; simp only [updSpecs, hb] at h; cases h
          | ok b =>
              cases b with
              | true => exfalso; simp only [updSpecs, hb] at h; cases h
              | false =>
                  exact specs_fall_step id patch gk (.vlist l) rest r
                    (by simp only [updSpecs, hb])
                    (fun tail => by simp only [searchSpecs, hb]) h ih

theorem pyGetD_setKey_self (d : Doc) (k : String) (v : Val) :
    pyGetD (setKey d k v) k = v := by
  simp [pyGetD, pyLookup_setKey_self]

theorem pyGetD_setKey_other (d : Doc) (k k' : String) (v : Val) (h : k' ≠ k) :
    pyGetD (setKey d k v) k' = pyGetD d k' := by
  simp [pyGetD, pyLookup_setKey_other d k k' v h]

/-- C10 (amended): whenever `update_item` completes without raising,
`get_item_by_id` also completes and the two structural searches agree:
`update_item` returned `True` exactly when `get_item_by_id` returns a
non-`None` item.  (When the matched item is not a dict, `update_item`
raises where `get_item_by_id` succeeds — see the counterexample.) -/
theorem update_item_agrees_get_item (d : Doc) (id : String)
    (patch : List (String × Val)) (b : Bool) (d' : Doc)
    (h : update_item d id patch = .ok (b, d')) :
    ∃ r, get_item_by_id d id = .ok r ∧ b = r.isSome := by
  simp only [update_item] at h
  cases hm1 : asMap (pyGetD d "user_needs") with
  | error e => simp only [hm1] at h; cases h
  | ok un =>
  simp only [hm1] at h
  cases hu1 : updFlat2 "needs" id patch un with
  | error e => simp only [hu1] at h; cases h
  | ok r1 =>
  cases r1 with
  | some un' =>
      simp only [hu1] at h
      have hb : true = b := by
        injection h with h2; injection h2 with hb _
      obtain ⟨_, hsome⟩ := updFlat2_rel "needs" id patch un _ hu1
      obtain ⟨i, h1, _⟩ := hsome un' rfl
      exact ⟨some (.vmap i), by simp only [get_item_by_id, hm1, h1], by rw [← hb]; rfl⟩
  | none =>
  simp only [hu1] at h
  have hs1 : searchFlat2 "needs" id un = .ok none :=
    (updFlat2_rel "needs" id patch un _ hu1).1 rfl
  cases hm2 : asMap (pyGetD d "risks") with
  | error e => simp only [hm2] at h; cases h
  | ok rk =>
  simp only [hm2] at h
  cases hu2 : updFlat2 "risks" id patch rk with
  | error e => simp only [hu2] at h; cases h
  | ok r2 =>
  cases r2 with
  | some rk' =>
      simp only [hu2] at h
      have hb : true = b := by
        injection h with h2; injection h2 with hb _
      obtain ⟨_, hsome⟩ := updFlat2_rel "risks" id patch rk _ hu2
      obtain ⟨i, h1, _⟩ := hsome rk' rfl
      exact ⟨some (.vmap i),
        by simp only [get_item_by_id, hm1, hs1, hm2, h1], by rw [← hb]; rfl⟩
  | none =>
  simp only [hu2] at h
  have hs2 : searchFlat2 "risks" id rk = .ok none :=
    (updFlat2_rel "risks" id patch rk _ hu2).1 rfl
  cases hm3 : asMap (pyGetD d "product_requirements") with
  | error e => simp only [hm3] at h; cases h
  | ok prs =>
  simp only [hm3] at h
  cases hu3 : updPR id patch prs with
  | error e => simp only [hu3] at h; cases h
  | ok r3 =>
  cases r3 with
  | some prs' =>
      simp only [hu3] at h
      have hb : true = b := by
        injection h with h2; injection h2 with hb _
      obtain ⟨_, hsome⟩ := updPR_rel id patch prs _ hu3
      obtain ⟨i, h1, _⟩ := hsome prs' rfl
      exact ⟨some (.vmap i),
        by simp only [get_item_by_id, hm1, hs1, hm2, hs2, hm3, h1], by rw [← hb]; rfl⟩
  | none =>
  simp only [hu3] at h
  have hs3 : searchPR id prs = .ok none := (updPR_rel id patch prs _ hu3).1 rfl
  cases hm4 : asMap (pyGetD d "software_specifications") with
  | error e => simp only [hm4] at h; cases h
  | ok sw =>
  simp only [hm4] at h
  cases hu4 : updSpecs id patch sw with
  | error e => simp only [hu4] at h; cases h
  | ok r4 =>
  cases r4 with
  | some sw' =>
      simp only [hu4] at h
      have hb : true = b := by
        injection h with h2; injection h2 with hb _
      obtain ⟨_, hsome⟩ := updSpecs_rel id patch sw _ hu4
      obtain ⟨i, h1, _⟩ := hsome sw' rfl
      exact ⟨some (.vmap i),
        by simp only [get_item_by_id, hm1, hs1, hm2, hs2, hm3, hs3, hm4, h1],
        by rw [← hb]; rfl⟩
  | none =>
  simp only [hu4] at h
  have hs4 : searchSpecs id sw = .ok none := (updSpecs_rel id patch sw _ hu4).1 rfl
  cases hm5 : asMap (pyGetD d "hardware_specifications") with
  | error e => simp only [hm5] at h; cases h
  | ok hw =>
  simp only [hm5] at h
  cases hu5 : updSpecs id patch hw with
  | error e => simp only [hu5] at h; cases h
  | ok r5 =>
  cases r5 with
  | some hw' =>
      simp only [hu5] at h
      have hb : true = b := by
        injection h with h2; injection h2 with hb _
      obtain ⟨_, hsome⟩ := updSpecs_rel id patch hw _ hu5
      obtain ⟨i, h1, _⟩ := hsome hw' rfl
      exact ⟨some (.vmap i),
        by simp only [get_item_by_id, hm1, hs1, hm2, hs2, hm3, hs3, hm4, hs4, hm5, h1],
        by rw [← hb]; rfl⟩
  | none =>
      simp only [hu5] at h
      have hs5 : searchSpecs id hw = .ok none := (updSpecs_rel id patch hw _ hu5).1 rfl
      have hb : false = b := by
        injection h with h2; injection h2 with hb _
      exact ⟨none,
        by simp only [get_item_by_id, hm1, hs1, hm2, hs2, hm3, hs3, hm4, hs4, hm5, hs5],
        by rw [← hb]; rfl⟩

/-- C2 (amended): after `update_item(id, patch)` returns `True`,
`get_item_by_id(id)` returns the field-merged record — every field of the
patch has the patch's value and every other field keeps its original
value — provided the patch contains none of the structural marker keys
(`needs`, `risks`, `requirements`) that drive shape detection (see the
counterexample), and has no duplicate keys (Python dicts cannot). -/
theorem update_item_then_get_merged (d : Doc) (id : String)
    (patch : List (String × Val)) (d' : Doc)
    (h : update_item d id patch = .ok (true, d'))
    (hneeds : "needs" ∉ patch.map Prod.fst)
    (hrisks : "risks" ∉ patch.map Prod.fst)
    (hreqs : "requirements" ∉ patch.map Prod.fst)
    (hnd : (patch.map Prod.fst).Nodup) :
    ∃ orig, get_item_by_id d id = .ok (some (.vmap orig)) ∧
      get_item_by_id d' id = .ok (some (.vmap (pyUpdateMap orig patch))) ∧
      (∀ k v, pyLookup patch k = some v → pyLookup (pyUpdateMap orig patch) k = some v) ∧
      (∀ k, pyLookup patch k = none →
        pyLookup (pyUpdateMap orig patch) k = pyLookup orig k) := by
  simp only [update_item] at h
  cases hm1 : asMap (pyGetD d "user_needs") with
  | error e => simp only [hm1] at h; cases h
  | ok un =>
  simp only [hm1] at h
  cases hu1 : updFlat2 "needs" id patch un with
  | error e => simp only [hu1] at h; cases h
  | ok r1 =>
  cases r1 with
  | some un' =>
      simp only [hu1] at h
      have hd' : setKey d "user_needs" (.vmap un') = d' := by
        injection h with h2; injection h2 with _ hd'
      subst hd'
      obtain ⟨_, hsome⟩ := updFlat2_rel "needs" id patch un _ hu1
      obtain ⟨i, h1, h2⟩ := hsome un' rfl
      refine ⟨i, by simp only [get_item_by_id, hm1, h1], ?_,
        fun k v hpv => pyLookup_pyUpdateMap_of_patch i patch k v hnd hpv,
        fun k hpn => pyLookup_pyUpdateMap_of_none i patch k hpn⟩
      have hm1' : asMap (pyGetD (setKey d "user_needs" (.vmap un')) "user_needs")
          = .ok un' := by rw [pyGetD_setKey_self]; rfl
      simp only [get_item_by_id, hm1', h2 hneeds]
  | none =>
  simp only [hu1] at h
  have hs1 : searchFlat2 "needs" id un = .ok none :=
    (updFlat2_rel "needs" id patch un _ hu1).1 rfl
  cases hm2 : asMap (pyGetD d "risks") with
  | error e => simp only [hm2] at h; cases h
  | ok rk =>
  simp only [hm2] at h
  cases hu2 : updFlat2 "risks" id patch rk with
  | error e => simp only [hu2] at h; cases h
  | ok r2 =>
  cases r2 with
  | some rk' =>
      simp only [hu2] at h
      have hd' : setKey d "risks" (.vmap rk') = d' := by
        injection h with h2; injection h2 with _ hd'
      subst hd'
      obtain ⟨_, hsome⟩ := updFlat2_rel "risks" id patch rk _ hu2
      obtain ⟨i, h1, h2⟩ := hsome rk' rfl
      refine ⟨i, by simp only [get_item_by_id, hm1, hs1, hm2, h1], ?_,
        fun k v hpv => pyLookup_pyUpdateMap_of_patch i patch k v hnd hpv,
        fun k hpn => pyLookup_pyUpdateMap_of_none i patch k hpn⟩
      have hm1' : asMap (pyGetD (setKey d "risks" (.vmap rk')) "user_needs")
          = .ok un := by
        rw [pyGetD_setKey_other d "risks" "user_needs" _ (by decide)]; exact hm1
      have hm2' : asMap (pyGetD (setKey d "risks" (.vmap rk')) "risks")
          = .ok rk' := by rw [pyGetD_setKey_self]; rfl
      simp only [get_item_by_id, hm1', hs1, hm2', h2 hrisks]
  | none =>
  simp only [hu2] at h
  have hs2 : searchFlat2 "risks" id rk = .ok none :=
    (updFlat2_rel "risks" id patch rk _ hu2).1 rfl
  cases hm3 : asMap (pyGetD d "product_requirements") with
  | error e => simp only [hm3] at h; cases h
  | ok prs =>
  simp only [hm3] at h
  cases hu3 : updPR id patch prs with
  | error e => simp only [hu3] at h; cases h
  | ok r3 =>
  cases r3 with
  | some prs' =>
      simp only [hu3] at h
      have hd' : setKey d "product_requirements" (.vmap prs') = d' := by
        injection h with h2; injection h2 with _ hd'
      subst hd'
      obtain ⟨_, hsome⟩ := updPR_rel id patch prs _ hu3
      obtain ⟨i, h1, h2⟩ := hsome prs' rfl
      refine ⟨i, by simp only [get_item_by_id, hm1, hs1, hm2, hs2, hm3, h1], ?_,
        fun k v hpv => pyLookup_pyUpdateMap_of_patch i patch k v hnd hpv,
        fun k hpn => pyLookup_pyUpdateMap_of_none i patch k hpn⟩
      have hm1' : asMap (pyGetD (setKey d "product_requirements" (.vmap prs')) "user_needs")
          = .ok un := by
        rw [pyGetD_setKey_other d _ "user_needs" _ (by decide)]; exact hm1
      have hm2' : asMap (pyGetD (setKey d "product_requirements" (.vmap prs')) "risks")
          = .ok rk := by
        rw [pyGetD_setKey_other d _ "risks" _ (by decide)]; exact hm2
      have hm3' : asMap (pyGetD (setKey d "product_requirements" (.vmap prs'))
          "product_requirements") = .ok prs' := by rw [pyGetD_setKey_self]; rfl
      simp only [get_item_by_id, hm1', hs1, hm2', hs2, hm3', h2 hreqs]
  | none =>
  simp only [hu3] at h
  have hs3 : searchPR id prs = .ok none := (updPR_rel id patch prs _ hu3).1 rfl
  cases hm4 : asMap (pyGetD d "software_specifications") with
  | error e => simp only [hm4] at h; cases h
  | ok sw =>
  simp only [hm4] at h
  cases hu4 : updSpecs id patch sw with
  | error e => simp only [hu4] at h; cases h
  | ok r4 =>
  cases r4 with
  | some sw' =>
      simp only [hu4] at h
      have hd' : setKey d "software_specifications" (.vmap sw') = d' := by
        injection h with h2; injection h2 with _ hd'
      subst hd'
      obtain ⟨_, hsome⟩ := updSpecs_rel id patch sw _ hu4
      obtain ⟨i, h1, h2⟩ := hsome sw' rfl
      refine ⟨i, by simp only [get_item_by_id, hm1, hs1, hm2, hs2, hm3, hs3, hm4, h1], ?_,
        fun k v hpv => pyLookup_pyUpdateMap_of_patch i patch k v hnd hpv,
        fun k hpn => pyLookup_pyUpdateMap_of_none i patch k hpn⟩
      have hm1' : asMap (pyGetD (setKey d "software_specifications" (.vmap sw')) "user_needs")
          = .ok un := by
        rw [pyGetD_setKey_other d _ "user_needs" _ (by decide)]; exact hm1
      have hm2' : asMap (pyGetD (setKey d "software_specifications" (.vmap sw')) "risks")
          = .ok rk := by
        rw [pyGetD_setKey_other d _ "risks" _ (by decide)]; exact hm2
      have hm3' : asMap (pyGetD (setKey d "software_specifications" (.vmap sw'))
          "product_requirements") = .ok prs := by
        rw [pyGetD_setKey_other d _ "product_requirements" _ (by decide)]; exact hm3
      have hm4' : asMap (pyGetD (setKey d "software_specifications" (.vmap sw'))
          "software_specifications") = .ok sw' := by rw [pyGetD_setKey_self]; rfl
      simp only [get_item_by_id, hm1', hs1, hm2', hs2, hm3', hs3, hm4', h2]
  | none =>
  simp only [hu4] at h
  have hs4 : searchSpecs id sw = .ok none := (updSpecs_rel id patch sw _ hu4).1 rfl
  cases hm5 : asMap (pyGetD d "hardware_specifications") with
  | error e => simp only [hm5] at h; cases h
  | ok hw =>
  simp only [hm5] at h
  cases hu5 : updSpecs id patch hw with
  | error e => simp only [hu5] at h; cases h
  | ok r5 =>
  cases r5 with
  | some hw' =>
      simp only [hu5] at h
      have hd' : setKey d "hardware_specifications" (.vmap hw') = d' := by
        injection h with h2; injection h2 with _ hd'
      subst hd'
      obtain ⟨_, hsome⟩ := updSpecs_rel id patch hw _ hu5
      obtain ⟨i, h1, h2⟩ := hsome hw' rfl
      refine ⟨i,
        by simp only [get_item_by_id, hm1, hs1, hm2, hs2, hm3, hs3, hm4, hs4, hm5, h1], ?_,
        fun k v hpv => pyLookup_pyUpdateMap_of_patch i patch k v hnd hpv,
        fun k hpn => pyLookup_pyUpdateMap_of_none i patch k hpn⟩
      have hm1' : asMap (pyGetD (setKey d "hardware_specifications" (.vmap hw')) "user_needs")
          = .ok un := by
        rw [pyGetD_setKey_other d _ "user_needs" _ (by decide)]; exact hm1
      have hm2' : asMap (pyGetD (setKey d "hardware_specifications" (.vmap hw')) "risks")
          = .ok rk := by
        rw [pyGetD_setKey_other d _ "risks" _ (by decide)]; exact hm2
      have hm3' : asMap (pyGetD (setKey d "hardware_specifications" (.vmap hw'))
          "product_requirements") = .ok prs := by
        rw [pyGetD_setKey_other d _ "product_requirements" _ (by decide)]; exact hm3
      have hm4' : asMap (pyGetD (setKey d "hardware_specifications" (.vmap hw'))
          "software_specifications") = .ok sw := by
        rw [pyGetD_setKey_other d _ "software_specifications" _ (by decide)]; exact hm4
      have hm5' : asMap (pyGetD (setKey d "hardware_specifications" (.vmap hw'))
          "hardware_specifications") = .ok hw' := by rw [pyGetD_setKey_self]; rfl
      simp only [get_item_by_id, hm1', hs1, hm2', hs2, hm3', hs3, hm4', hs4, hm5', h2]
  | none =>
      simp only [hu5] at h
      exfalso
      have hb : false = true := by
        injection h with h2; injection h2 with hb _
      cases hb

/-! ## Flattening lemmas (claim C3) -/


theorem setKey_not_mem (m : List (String × Val)) (k : String) (v : Val)
    (h : k ∉ m.map Prod.fst) : setKey m k v = m ++ [(k, v)] := by
  induction m with
  | nil => rfl
  | cons p rest ih =>
      obtain ⟨k0, v0⟩ := p
      simp only [List.map_cons, List.mem_cons] at h
      push_neg at h
      have hk : ¬ (k0 = k) := fun hh => h.1 hh.symm
      simp [setKey, hk, ih h.2]

theorem pyUpdateMap_append_of_nodup (acc rm : List (String × Val))
    (h : ((acc ++ rm).map Prod.fst).Nodup) : pyUpdateMap acc rm = acc ++ rm := by
  induction rm generalizing acc with
  | nil => simp [pyUpdateMap]
  | cons p rest ih =>
      obtain ⟨k, v⟩ := p
      have hdisj : k ∉ acc.map Prod.fst := by
        rw [List.map_append, List.nodup_append] at h
        exact fun hk => h.2.2 hk (by simp)
      have hstep : pyUpdateMap acc ((k, v) :: rest) = pyUpdateMap (setKey acc k v) rest := rfl
      rw [hstep, setKey_not_mem acc k v hdisj, ih (acc ++ [(k, v)]) (by simpa using h)]
      simp

theorem flattenRisksAux_grouped :
    ∀ (gs : List (String × Val)) (acc : List (String × Val)),
      allGroupedRisks gs = true →
      ((acc ++ flatOfGroups gs).map Prod.fst).Nodup →
      flattenRisksAux acc gs = .ok (acc ++ flatOfGroups gs) := by
  intro gs
  induction gs with
  | nil => intro acc _ _; simp [flattenRisksAux, flatOfGroups]
  | cons p rest ih =>
      obtain ⟨gk, gv⟩ := p
      intro acc hg hnd
      cases gv with
      | vmap m =>
          cases hq : pyLookup m "risks" with
          | some inner =>
              cases inner with
              | vmap rm =>
                  have hflat : flatOfGroups ((gk, .vmap m) :: rest)
                      = rm ++ flatOfGroups rest := by
                    simp [flatOfGroups, hq]
                  rw [hflat] at hnd
                  have hg' : allGroupedRisks rest = true := by
                    simp only [allGroupedRisks, List.all_cons, Bool.and_eq_true] at hg
                    exact hg.2
                  have hnd2 : (((acc ++ rm) ++ flatOfGroups rest).map Prod.fst).Nodup := by
                    simpa [List.append_assoc] using hnd
                  have hnd1 : ((acc ++ rm).map Prod.fst).Nodup := by
                    rw [List.map_append, List.nodup_append] at hnd2
                    exact hnd2.1
                  have : flattenRisksAux acc ((gk, .vmap m) :: rest)
                      = flattenRisksAux (pyUpdateMap acc rm) rest := by
                    simp [flattenRisksAux, hq]
                  rw [this, pyUpdateMap_append_of_nodup acc rm hnd1, ih _ hg' hnd2, hflat]
                  simp
              | vstr s =>
                  exfalso
                  simp [allGroupedRisks, List.all_cons, hq] at hg
              | vnat n =>
                  exfalso
                  simp [allGroupedRisks, List.all_cons, hq] at hg
              | vlist l =>
                  exfalso
                  simp [allGroupedRisks, List.all_cons, hq] at hg
          | none =>
              exfalso
              simp [allGroupedRisks, List.all_cons, hq] at hg
      | vstr s => exfalso; simp [allGroupedRisks, List.all_cons] at hg
      | vnat n => exfalso; simp [allGroupedRisks, List.all_cons] at hg
      | vlist l => exfalso; simp [allGroupedRisks, List.all_cons] at hg

theorem anyGroupHasRisks_of_grouped (p : String × Val) (rest : List (String × Val))
    (hg : allGroupedRisks (p :: rest) = true) :
    anyGroupHasRisks (p :: rest) = true := by
  obtain ⟨gk, gv⟩ := p
  simp only [allGroupedRisks, List.all_cons, Bool.and_eq_true] at hg
  have h1 := hg.1
  cases gv with
  | vmap m =>
      cases hq : pyLookup m "risks" with
      | some inner =>
          simp [anyGroupHasRisks, List.any_cons, isDictWithKey, hq]
      | none => simp [hq] at h1
  | vstr s => simp at h1
  | vnat n => simp at h1
  | vlist l => simp at h1

theorem anyGroupHasRisks_false_of_plain (gs : List (String × Val))
    (h : gs.all (fun p => !isDictWithKey "risks" p.2) = true) :
    anyGroupHasRisks gs = false := by
  rw [List.all_eq_true] at h
  rw [anyGroupHasRisks, List.any_eq_false]
  intro p hp
  have := h p hp
  simpa using this

/-! ## Main theorem for claim C3 -/

/-- C3: `get_risks_flat` over a fully grouped risks document yields exactly
the `{risk_id: risk}` mapping that a legacy flat document with the same
risk content stores, and returns that legacy flat document unchanged
(shape detection by the `risks` key). -/
theorem get_risks_flat_grouped_eq_legacy (gs : List (String × Val))
    (hg : allGroupedRisks gs = true)
    (hnd : ((flatOfGroups gs).map Prod.fst).Nodup)
    (hplain : (flatOfGroups gs).all (fun p => !isDictWithKey "risks" p.2) = true) :
    get_risks_flat [("risks", .vmap gs)] = .ok (flatOfGroups gs) ∧
    get_risks_flat [("risks", .vmap (flatOfGroups gs))] = .ok (flatOfGroups gs) := by
  constructor
  · cases gs with
    | nil => rfl
    | cons p rest =>
        have hany := anyGroupHasRisks_of_grouped p rest hg
        have hrun := flattenRisksAux_grouped (p :: rest) [] hg (by simpa using hnd)
        have hacc : asMap (pyGetD [("risks", .vmap (p :: rest))] "risks")
            = .ok (p :: rest) := rfl
        simp only [get_risks_flat, hacc, hany, if_true]
        simpa using hrun
  · have hacc : asMap (pyGetD [("risks", .vmap (flatOfGroups gs))] "risks")
        = .ok (flatOfGroups gs) := rfl
    have hany := anyGroupHasRisks_false_of_plain _ hplain
    simp only [get_risks_flat, hacc, hany, Bool.false_eq_true, if_false]

/-! ## Lemmas for claims C5 and C6 -/


theorem base_le_pyMax (x : Int) (l : List Int) : x ≤ pyMax x l := by
  induction l generalizing x with
  | nil => exact le_refl x
  | cons y rest ih =>
      have h1 : x ≤ max x y := le_max_left x y
      have h2 : max x y ≤ pyMax (max x y) rest := ih (max x y)
      exact le_trans h1 h2

theorem mem_le_pyMax (x : Int) (l : List Int) (n : Int) (h : n ∈ l) : n ≤ pyMax x l := by
  induction l generalizing x with
  | nil => cases h
  | cons y rest ih =>
      rcases List.mem_cons.mp h with h1 | h1
      · subst h1
        exact le_trans (le_max_right x n) (base_le_pyMax (max x n) rest)
      · exact ih (max x y) h1

theorem pyLookup_delKey_self (mm : List (String × Val)) (oid : String)
    (hnd : (mm.map Prod.fst).Nodup) : pyLookup (delKey mm oid) oid = none := by
  induction mm with
  | nil => rfl
  | cons p rest ih =>
      obtain ⟨k, v⟩ := p
      simp only [List.map_cons, List.nodup_cons] at hnd
      by_cases hk : k = oid
      · subst hk
        simp only [delKey, if_pos rfl]
        exact (pyLookup_eq_none_iff rest k).mpr hnd.1
      · simp only [delKey, if_neg hk, pyLookup, if_neg hk]
        exact ih hnd.2

theorem pyLookup_delKey_other (mm : List (String × Val)) (oid k : String)
    (h : k ≠ oid) : pyLookup (delKey mm oid) k = pyLookup mm k := by
  induction mm with
  | nil => rfl
  | cons p rest ih =>
      obtain ⟨k0, v⟩ := p
      by_cases hk : k0 = oid
      · subst hk
        have hne : ¬ (k0 = k) := fun hh => h (by rw [← hh])
        simp [delKey, pyLookup, hne]
      · by_cases hk2 : k0 = k
        · subst hk2
          simp [delKey, hk, pyLookup]
        · simp [delKey, hk, hk2, pyLookup, ih]

theorem checkInUse_not_special (ctype oid : String)
    (h1 : ctype ≠ "severity") (h2 : ctype ≠ "probability") :
    ∀ rgs, checkInUse ctype oid rgs = .ok false := by
  intro rgs
  induction rgs with
  | nil => rfl
  | cons p rest ih =>
      obtain ⟨rk, rv⟩ := p
      cases rv with
      | vmap rm => simp [checkInUse, h1, h2, ih]
      | vstr s => simp [checkInUse, h1, h2, ih]
      | vnat n => simp [checkInUse, h1, h2, ih]
      | vlist l => simp [checkInUse, h1, h2, ih]

/-! ## Main theorems for claims C5 and C6 -/

theorem parseInt_digits (ds : List Char) (hne : ds ≠ [])
    (hds : ds.all Char.isDigit = true) :
    parseInt ⟨ds⟩ = some ((digitsVal ds : Nat) : Int) := by
  cases ds with
  | nil => cases hne rfl
  | cons d rest =>
      simp only [List.all_cons, Bool.and_eq_true] at hds
      have hd : ¬ (d = '-') := by
        intro hh
        rw [hh] at hds
        exact absurd hds.1 (by decide)
      simp only [parseInt, if_neg hd]
      rw [if_pos]
      · rfl
      · simp [List.all_cons, hds.1, hds.2]

/-- `max(list)` is attained by one of its elements. -/
theorem pyMax_mem (x : Int) (l : List Int) : pyMax x l ∈ x :: l := by
  induction l generalizing x with
  | nil => exact List.mem_cons_self _ _
  | cons y rest ih =>
      have h := ih (max x y)
      have hx : pyMax x (y :: rest) = pyMax (max x y) rest := rfl
      rw [hx]
      rcases List.mem_cons.mp h with h1 | h1
      · rcases max_choice x y with hm | hm
        · rw [h1, hm]; exact List.mem_cons_self _ _
        · rw [h1, hm]; exact List.mem_cons_of_mem _ (List.mem_cons_self _ _)
      · exact List.mem_cons_of_mem _ (List.mem_cons_of_mem _ h1)

/-- C5 (amended): `add_config_option` returns `<prefix><N>` where the
prefix letter is `"S"` for `severity` and `"P"` for every other type (not
`PO`/`PH` — see the counterexample).  On a mapping whose prefixed keys all
have the shape the code itself generates — the prefix letter followed by a
non-empty digit string, where the modelled `parseInt` coincides with
Python's `int()` — `N` is exactly `max + 1`: it exceeds every existing
numeric suffix `int(key[1:])`, `N - 1` is one of those suffixes when any
prefixed key exists, and `N = 1` when none exists. -/
theorem add_config_option_next_id (d : Doc) (ctype nm desc : String)
    (cm mm : List (String × Val))
    (hconf : pyLookup d "configuration" = some (.vmap cm))
    (hmap : pyLookup cm (ctype ++ "_mapping") = some (.vmap mm))
    (hkeys : ∀ k, k ∈ mm.map Prod.fst →
      ((if ctype = "severity" then "S" else "P") : String).data.isPrefixOf k.data = true →
      k.data.drop 1 ≠ [] ∧ (k.data.drop 1).all Char.isDigit = true) :
    ∃ d' nxt, add_config_option d ctype nm desc
        = .ok ((if ctype = "severity" then "S" else "P") ++ toString nxt, d') ∧
      ((∀ k, k ∈ mm.map Prod.fst →
          ((if ctype = "severity" then "S" else "P") : String).data.isPrefixOf k.data
            = false) → nxt = 1) ∧
      (∀ k n, k ∈ mm.map Prod.fst →
          ((if ctype = "severity" then "S" else "P") : String).data.isPrefixOf k.data = true →
          parseInt (String.mk (k.data.drop 1)) = some n → n < nxt) ∧
      ((∃ k, k ∈ mm.map Prod.fst ∧
          ((if ctype = "severity" then "S" else "P") : String).data.isPrefixOf k.data = true) →
        ∃ k, k ∈ mm.map Prod.fst ∧
          ((if ctype = "severity" then "S" else "P") : String).data.isPrefixOf k.data = true ∧
          parseInt (String.mk (k.data.drop 1)) = some (nxt - 1)) := by
  have hget : (pyLookup d "configuration").getD (.vmap []) = .vmap cm := by
    rw [hconf]; rfl
  have hparse : ∀ k, k ∈ mm.map Prod.fst →
      ((if ctype = "severity" then "S" else "P") : String).data.isPrefixOf k.data = true →
      ∃ n, parseInt (String.mk (k.data.drop 1)) = some n := by
    intro k hk hp
    obtain ⟨hne, hdig⟩ := hkeys k hk hp
    exact ⟨_, parseInt_digits _ hne hdig⟩
  cases hn : configNumbers (if ctype = "severity" then "S" else "P") mm with
  | nil =>
      have hnopre : ∀ k, k ∈ mm.map Prod.fst →
          ((if ctype = "severity" then "S" else "P") : String).data.isPrefixOf k.data
            = false := by
        intro k hk
        cases hb : ((if ctype = "severity" then "S" else "P") : String).data.isPrefixOf k.data
        with
        | false => rfl
        | true =>
            exfalso
            obtain ⟨n, hpn⟩ := hparse k hk hb
            have : (n : Int) ∈ configNumbers (if ctype = "severity" then "S" else "P") mm :=
              List.mem_filterMap.mpr ⟨k, List.mem_filter.mpr ⟨hk, hb⟩, hpn⟩
            rw [hn] at this
            cases this
      refine ⟨setKey d "configuration" (.vmap (setKey cm (ctype ++ "_mapping")
          (.vmap (setKey mm ((if ctype = "severity" then "S" else "P") ++ toString (1 : Int))
            (.vmap [("name", .vstr nm), ("description",
              .vstr (if desc = "" then nm ++ " option for " ++ ctype else desc))]))))),
        1, ?_, fun _ => rfl, ?_, ?_⟩
      · simp only [add_config_option, hget, hmap, configNextId, hn]
      · intro k n hk hpre _
        rw [hnopre k hk] at hpre
        cases hpre
      · rintro ⟨k, hk, hpre⟩
        rw [hnopre k hk] at hpre
        cases hpre
  | cons n0 rest =>
      refine ⟨setKey d "configuration" (.vmap (setKey cm (ctype ++ "_mapping")
          (.vmap (setKey mm ((if ctype = "severity" then "S" else "P")
              ++ toString (pyMax n0 rest + 1))
            (.vmap [("name", .vstr nm), ("description",
              .vstr (if desc = "" then nm ++ " option for " ++ ctype else desc))]))))),
        pyMax n0 rest + 1, ?_, ?_, ?_, ?_⟩
      · simp only [add_config_option, hget, hmap, configNextId, hn]
      · intro hall
        exfalso
        have : (n0 : Int) ∈ configNumbers (if ctype = "severity" then "S" else "P") mm := by
          rw [hn]; exact List.mem_cons_self _ _
        obtain ⟨k, hk, hp⟩ := List.mem_filterMap.mp this
        have hkf := List.mem_filter.mp hk
        have hp2 := hkf.2
        rw [hall k hkf.1] at hp2
        cases hp2
      · intro k n hk hpre hp
        have : (n : Int) ∈ configNumbers (if ctype = "severity" then "S" else "P") mm :=
          List.mem_filterMap.mpr ⟨k, List.mem_filter.mpr ⟨hk, hpre⟩, hp⟩
        rw [hn] at this
        rcases List.mem_cons.mp this with h | h
        · subst h
          have := base_le_pyMax n rest
          omega
        · have := mem_le_pyMax n0 rest n h
          omega
      · intro _
        have hmax : pyMax n0 rest ∈ configNumbers (if ctype = "severity" then "S" else "P") mm := by
          rw [hn]; exact pyMax_mem n0 rest
        obtain ⟨k, hk, hp⟩ := List.mem_filterMap.mp hmax
        have hkf := List.mem_filter.mp hk
        refine ⟨k, hkf.1, hkf.2, ?_⟩
        have harith : pyMax n0 rest + 1 - 1 = pyMax n0 rest := by omega
        rw [harith]
        exact hp

/-- C6 (amended): `remove_config_option` deletes a present key and returns
`True` unless the in-use scan fires — which happens only for the
`severity`/`probability` types when a *top-level* value of `risks` (a
legacy-flat risk record) carries the matching field (see the
counterexample); it returns `False` exactly when the scan fires or the key
is absent. -/
theorem remove_config_option_spec (d : Doc) (ctype oid : String)
    (rgs cm mm : List (String × Val))
    (hr : asMap (pyGetD d "risks") = .ok rgs)
    (hconf : pyLookup d "configuration" = some (.vmap cm))
    (hmap : pyLookup cm (ctype ++ "_mapping") = some (.vmap mm))
    (hnd : (mm.map Prod.fst).Nodup) :
    (checkInUse ctype oid rgs = .ok true →
        remove_config_option d ctype oid = .ok (false, d)) ∧
    (checkInUse ctype oid rgs = .ok false → pyLookup mm oid = none →
        remove_config_option d ctype oid = .ok (false, d)) ∧
    (∀ v, checkInUse ctype oid rgs = .ok false → pyLookup mm oid = some v →
        remove_config_option d ctype oid
          = .ok (true, setKey d "configuration"
              (.vmap (setKey cm (ctype ++ "_mapping") (.vmap (delKey mm oid))))) ∧
        pyLookup (delKey mm oid) oid = none ∧
        (∀ k, k ≠ oid → pyLookup (delKey mm oid) k = pyLookup mm k)) := by
  refine ⟨?_, ?_, ?_⟩
  · intro hc
    simp only [remove_config_option, hr, hc]
  · intro hc hnone
    simp only [remove_config_option, hr, hc, hconf, hmap, hnone]
  · intro v hc hsome
    refine ⟨?_, pyLookup_delKey_self mm oid hnd, fun k hk => pyLookup_delKey_other mm oid k hk⟩
    simp only [remove_config_option, hr, hc, hconf, hmap, hsome]

/-! ## Main theorem for claim C8 -/

/-- C8: `save_data` replaces the in-memory cache only after a successful
write; a failed write raises an error and leaves the cached document
unchanged. -/
theorem save_data_cache_discipline (mgr : DHFManagerState) (d : Doc) :
    (save_data false mgr d).1 = mgr ∧ (save_data false mgr d).2.isSome = true ∧
    (save_data true mgr d).1.cache = some d ∧ (save_data true mgr d).2 = none := by
  simp [save_data]

/-! ## Lemmas and main theorem for claim C7 -/


theorem isPrefixOf_append_self (l t : List Char) : l.isPrefixOf (l ++ t) = true := by
  induction l with
  | nil => simp [List.isPrefixOf]
  | cons a as ih => simp [List.isPrefixOf, ih]

theorem listReplaceFuel_no_match (c0 : Char) (pat' : List Char)
    (hc0 : c0.isDigit = false) :
    ∀ (l : List Char), l.all Char.isDigit = true →
      ∀ fuel, listReplaceFuel (c0 :: pat') fuel l = l := by
  intro l
  induction l with
  | nil => intro _ fuel; cases fuel <;> rfl
  | cons c rest ih =>
      intro hall fuel
      simp only [List.all_cons, Bool.and_eq_true] at hall
      cases fuel with
      | zero => rfl
      | succ n =>
          have hcc : ¬ (c0 = c) := by
            intro hh
            rw [hh, hall.1] at hc0
            cases hc0
          have hne : (c0 == c) = false := beq_eq_false_iff_ne.mpr hcc
          have hpre : (c0 :: pat').isPrefixOf (c :: rest) = false := by
            simp [List.isPrefixOf, hne]
          simp only [listReplaceFuel, hpre, Bool.false_eq_true, if_false]
          rw [ih hall.2 n]

theorem pyReplaceAll_prefix_digits (pre s : String) (ds : List Char)
    (c0 : Char) (pre' : List Char)
    (hpre : pre.data = c0 :: pre') (hc0 : c0.isDigit = false)
    (hs : s.data = pre.data ++ ds) (hds : ds.all Char.isDigit = true) :
    pyReplaceAll s pre = ⟨ds⟩ := by
  have hlen : s.data.length = (pre' ++ ds).length + 1 := by
    rw [hs, hpre, List.cons_append]
    simp
  show String.mk (listReplaceFuel pre.data s.data.length s.data) = String.mk ds
  rw [hlen, hs, hpre, List.cons_append]
  have hp : (c0 :: pre').isPrefixOf (c0 :: (pre' ++ ds)) = true := by
    rw [← List.cons_append]
    exact isPrefixOf_append_self _ _
  have hstep : listReplaceFuel (c0 :: pre') ((pre' ++ ds).length + 1) (c0 :: (pre' ++ ds))
      = listReplaceFuel (c0 :: pre') (pre' ++ ds).length
          ((c0 :: (pre' ++ ds)).drop (c0 :: pre').length) := by
    simp only [listReplaceFuel, hp, if_true]
  rw [hstep]
  have hdrop : (c0 :: (pre' ++ ds)).drop (c0 :: pre').length = ds := by
    rw [← List.cons_append]
    exact List.drop_left _ _
  rw [hdrop, listReplaceFuel_no_match c0 pre' hc0 ds hds]

theorem rbmComponent_wf (pre s : String) (v : Int) (c0 : Char) (pre' : List Char)
    (hpre : pre.data = c0 :: pre') (hc0 : c0.isDigit = false)
    (h : RbmWellFormed pre s v) : rbmComponent pre s = .ok v := by
  rcases h with ⟨ds, hs, hne, hds, hv⟩ | ⟨hnp, hv⟩
  · have hp : pre.data.isPrefixOf s.data = true := by
      rw [hs]
      exact isPrefixOf_append_self _ _
    have hrepl := pyReplaceAll_prefix_digits pre s ds c0 pre' hpre hc0 hs hds
    have hparse := parseInt_digits ds hne hds
    simp only [rbmComponent, hp, if_true, hrepl, hparse, hv]
  · simp [rbmComponent, hnp, hv]

/-- C7 (amended): `calculate_rbm_score` returns the product of the three
values, where each value is the integer formed by deleting every
occurrence of the expected prefix from the ID when the ID starts with it
(for well-formed `<prefix><digits>` ids these are exactly the digits after
the prefix), and defaults to 1 when the prefix does not match.  ("Trailing
digits" as stated fails — see the counterexample.) -/
theorem calculate_rbm_score_wf (po ph sv : String) (a b c : Int)
    (hpo : RbmWellFormed "PO" po a) (hph : RbmWellFormed "PH" ph b)
    (hsv : RbmWellFormed "S" sv c) :
    calculate_rbm_score po ph sv = .ok (a * b * c) := by
  have h1 := rbmComponent_wf "PO" po a 'P' ['O'] rfl (by decide) hpo
  have h2 := rbmComponent_wf "PH" ph b 'P' ['H'] rfl (by decide) hph
  have h3 := rbmComponent_wf "S" sv c 'S' [] rfl (by decide) hsv
  simp only [calculate_rbm_score, h1, h2, h3]

/-! ## Lemmas and main theorem for claim C1 -/


theorem searchSubGroups_found (id : String) (v : Val) :
    ∀ children, wfSubGroups children = true →
      ((subLeaves children).map Prod.fst).Nodup →
      (id, v) ∈ subLeaves children →
      searchSubGroups id children = .ok (some v) := by
  intro children
  induction children with
  | nil => intro _ _ hmem; cases hmem
  | cons p rest ih =>
      obtain ⟨sk, sg⟩ := p
      intro hwf hnd hmem
      simp only [wfSubGroups, List.all_cons, Bool.and_eq_true] at hwf
      obtain ⟨hwf1, hwf2⟩ := hwf
      cases sg with
      | vmap sm =>
          cases hq : pyLookup sm "requirements" with
          | some inner =>
              cases inner with
              | vmap rm =>
                  have hleaves : subLeaves ((sk, .vmap sm) :: rest)
                      = rm ++ subLeaves rest := by
                    simp [subLeaves, hq]
                  rw [hleaves] at hnd hmem
                  rw [List.map_append, List.nodup_append] at hnd
                  rcases List.mem_append.mp hmem with hm | hm
                  · have : pyLookup rm id = some v :=
                      pyLookup_of_mem_nodup rm id v hm hnd.1
                    simp only [searchSubGroups, hq, this]
                  · have hid : id ∈ (subLeaves rest).map Prod.fst :=
                      List.mem_map.mpr ⟨(id, v), hm, rfl⟩
                    have : pyLookup rm id = none := by
                      rw [pyLookup_eq_none_iff]
                      exact fun hin => hnd.2.2 hin hid
                    simp only [searchSubGroups, hq, this]
                    exact ih hwf2 hnd.2.1 hm
              | vstr s => simp [wfSubGroup, hq] at hwf1
              | vnat n => simp [wfSubGroup, hq] at hwf1
              | vlist l => simp [wfSubGroup, hq] at hwf1
          | none =>
              have hleaves : subLeaves ((sk, .vmap sm) :: rest) = subLeaves rest := by
                simp [subLeaves, hq]
              rw [hleaves] at hnd hmem
              simp only [searchSubGroups, hq]
              exact ih hwf2 hnd hmem
      | vstr s => simp [wfSubGroup] at hwf1
      | vnat n => simp [wfSubGroup] at hwf1
      | vlist l => simp [wfSubGroup] at hwf1

theorem searchSubGroups_notfound (id : String) :
    ∀ children, wfSubGroups children = true →
      id ∉ (subLeaves children).map Prod.fst →
      searchSubGroups id children = .ok none := by
  intro children
  induction children with
  | nil => intro _ _; rfl
  | cons p rest ih =>
      obtain ⟨sk, sg⟩ := p
      intro hwf hid
      simp only [wfSubGroups, List.all_cons, Bool.and_eq_true] at hwf
      obtain ⟨hwf1, hwf2⟩ := hwf
      cases sg with
      | vmap sm =>
          cases hq : pyLookup sm "requirements" with
          | some inner =>
              cases inner with
              | vmap rm =>
                  have hleaves : subLeaves ((sk, .vmap sm) :: rest)
                      = rm ++ subLeaves rest := by
                    simp [subLeaves, hq]
                  rw [hleaves, List.map_append] at hid
                  have hid1 : id ∉ rm.map Prod.fst := fun hin =>
                    hid (List.mem_append.mpr (Or.inl hin))
                  have hid2 : id ∉ (subLeaves rest).map Prod.fst := fun hin =>
                    hid (List.mem_append.mpr (Or.inr hin))
                  have : pyLookup rm id = none := (pyLookup_eq_none_iff rm id).mpr hid1
                  simp only [searchSubGroups, hq, this]
                  exact ih hwf2 hid2
              | vstr s => simp [wfSubGroup, hq] at hwf1
              | vnat n => simp [wfSubGroup, hq] at hwf1
              | vlist l => simp [wfSubGroup, hq] at hwf1
          | none =>
              have hleaves : subLeaves ((sk, .vmap sm) :: rest) = subLeaves rest := by
                simp [subLeaves, hq]
              rw [hleaves] at hid
              simp only [searchSubGroups, hq]
              exact ih hwf2 hid
      | vstr s => simp [wfSubGroup] at hwf1
      | vnat n => simp [wfSubGroup] at hwf1
      | vlist l => simp [wfSubGroup] at hwf1

theorem searchPR_found (id : String) (v : Val) :
    ∀ gs, wfPRGroups gs = true →
      ((prLeaves gs).map Prod.fst).Nodup →
      (id, v) ∈ prLeaves gs →
      searchPR id gs = .ok (some v) := by
  intro gs
  induction gs with
  | nil => intro _ _ hmem; cases hmem
  | cons p rest ih =>
      obtain ⟨gk, g⟩ := p
      intro hwf hnd hmem
      simp only [wfPRGroups, List.all_cons, Bool.and_eq_true] at hwf
      obtain ⟨hwf1, hwf2⟩ := hwf
      have hsplit : prLeaves ((gk, g) :: rest) = groupLeaves g ++ prLeaves rest := rfl
      rw [hsplit] at hnd hmem
      cases g with
      | vmap gm =>
          cases hq : pyLookup gm "requirements" with
          | some inner =>
              cases inner with
              | vmap children =>
                  cases han : anyNestedReq children with
                  | true =>
                      have hgl : groupLeaves (.vmap gm) = subLeaves children := by
                        simp [groupLeaves, hq, han]
                      rw [hgl] at hnd hmem
                      rw [List.map_append, List.nodup_append] at hnd
                      have hwfs : wfSubGroups children = true := by
                        simpa [wfPRGroup, hq, han] using hwf1
                      rcases List.mem_append.mp hmem with hm | hm
                      · have := searchSubGroups_found id v children hwfs hnd.1 hm
                        simp only [searchPR, hq, han, if_pos, this]
                      · have hid : id ∉ (subLeaves children).map Prod.fst := by
                          intro hin
                          exact hnd.2.2 hin (List.mem_map.mpr ⟨(id, v), hm, rfl⟩)
                        have := searchSubGroups_notfound id children hwfs hid
                        simp only [searchPR, hq, han, if_pos, this]
                        exact ih hwf2 hnd.2.1 hm
                  | false =>
                      have hgl : groupLeaves (.vmap gm) = children := by
                        simp [groupLeaves, hq, han]
                      rw [hgl] at hnd hmem
                      rw [List.map_append, List.nodup_append] at hnd
                      rcases List.mem_append.mp hmem with hm | hm
                      · have : pyLookup children id = some v :=
                          pyLookup_of_mem_nodup children id v hm hnd.1
                        simp only [searchPR, hq, han, Bool.false_eq_true, if_false, this]
                      · have hid : id ∈ (prLeaves rest).map Prod.fst :=
                          List.mem_map.mpr ⟨(id, v), hm, rfl⟩
                        have : pyLookup children id = none := by
                          rw [pyLookup_eq_none_iff]
                          exact fun hin => hnd.2.2 hin hid
                        simp only [searchPR, hq, han, Bool.false_eq_true, if_false, this]
                        exact ih hwf2 hnd.2.1 hm
              | vstr s => simp [wfPRGroup, hq] at hwf1
              | vnat n => simp [wfPRGroup, hq] at hwf1
              | vlist l => simp [wfPRGroup, hq] at hwf1
          | none =>
              have hgl : groupLeaves (Val.vmap gm) = [] := by
                simp [groupLeaves, hq]
              rw [hgl, List.nil_append] at hnd hmem
              simp only [searchPR, hq]
              exact ih hwf2 hnd hmem
      | vstr s => simp [wfPRGroup] at hwf1
      | vnat n => simp [wfPRGroup] at hwf1
      | vlist l => simp [wfPRGroup] at hwf1

/-- C1 (amended): in a document whose product-requirements section is
raise-free and whose leaf requirement ids are globally distinct, every leaf
stored at either supported depth (2-level or 3-level, coexisting groups
included) is found by `get_item_by_id` once the two earlier categories do
not match, and its id labels exactly one structural path.  (The claim's
flat shape is not supported by the code — see the counterexample.) -/
theorem get_item_by_id_finds_pr_leaf (d : Doc) (id : String) (v : Val)
    (un rk prs : List (String × Val))
    (hm1 : asMap (pyGetD d "user_needs") = .ok un)
    (hs1 : searchFlat2 "needs" id un = .ok none)
    (hm2 : asMap (pyGetD d "risks") = .ok rk)
    (hs2 : searchFlat2 "risks" id rk = .ok none)
    (hm3 : asMap (pyGetD d "product_requirements") = .ok prs)
    (hwf : wfPRGroups prs = true)
    (hnd : ((prLeaves prs).map Prod.fst).Nodup)
    (hmem : (id, v) ∈ prLeaves prs) :
    get_item_by_id d id = .ok (some v) ∧
    ((prLeaves prs).map Prod.fst).count id = 1 := by
  have hfind := searchPR_found id v prs hwf hnd hmem
  constructor
  · simp only [get_item_by_id, hm1, hs1, hm2, hs2, hm3, hfind]
  · exact List.count_eq_one_of_mem hnd (List.mem_map.mpr ⟨(id, v), hmem, rfl⟩)

/-! ## Lemmas and main theorem for claim C9 -/


theorem searchFlat2_wf_ok (marker id : String) :
    ∀ gs, wfFlat2Groups marker gs = true →
      ∃ r, searchFlat2 marker id gs = .ok r := by
  intro gs
  induction gs with
  | nil => intro _; exact ⟨none, rfl⟩
  | cons p rest ih =>
      obtain ⟨gk, gv⟩ := p
      intro hwf
      simp only [wfFlat2Groups, List.all_cons, Bool.and_eq_true] at hwf
      obtain ⟨hwf1, hwf2⟩ := hwf
      cases gv with
      | vmap m =>
          cases hm : pyLookup m marker with
          | some inner =>
              cases inner with
              | vmap im =>
                  cases hi : pyLookup im id with
                  | some item => exact ⟨some item, by simp only [searchFlat2, hm, hi]⟩
                  | none =>
                      obtain ⟨r, hr⟩ := ih hwf2
                      exact ⟨r, by simp only [searchFlat2, hm, hi]; exact hr⟩
              | vstr s => simp [wfFlat2Group, hm] at hwf1
              | vnat n => simp [wfFlat2Group, hm] at hwf1
              | vlist l => simp [wfFlat2Group, hm] at hwf1
          | none =>
              by_cases hk : gk = id
              · exact ⟨some (.vmap m), by simp only [searchFlat2, hm, if_pos hk]⟩
              · obtain ⟨r, hr⟩ := ih hwf2
                exact ⟨r, by simp only [searchFlat2, hm, if_neg hk]; exact hr⟩
      | vstr s =>
          by_cases hk : gk = id
          · exact ⟨some (.vstr s), by simp only [searchFlat2, if_pos hk]⟩
          · obtain ⟨r, hr⟩ := ih hwf2
            exact ⟨r, by simp only [searchFlat2, if_neg hk]; exact hr⟩
      | vnat n =>
          by_cases hk : gk = id
          · exact ⟨some (.vnat n), by simp only [searchFlat2, if_pos hk]⟩
          · obtain ⟨r, hr⟩ := ih hwf2
            exact ⟨r, by simp only [searchFlat2, if_neg hk]; exact hr⟩
      | vlist l =>
          by_cases hk : gk = id
          · exact ⟨some (.vlist l), by simp only [searchFlat2, if_pos hk]⟩
          · obtain ⟨r, hr⟩ := ih hwf2
            exact ⟨r, by simp only [searchFlat2, if_neg hk]; exact hr⟩

theorem searchSubGroups_wf_ok (id : String) :
    ∀ children, wfSubGroups children = true →
      ∃ r, searchSubGroups id children = .ok r := by
  intro children
  induction children with
  | nil => intro _; exact ⟨none, rfl⟩
  | cons p rest ih =>
      obtain ⟨sk, sg⟩ := p
      intro hwf
      simp only [wfSubGroups, List.all_cons, Bool.and_eq_true] at hwf
      obtain ⟨hwf1, hwf2⟩ := hwf
      cases sg with
      | vmap sm =>
          cases hq : pyLookup sm "requirements" with
          | some inner =>
              cases inner with
              | vmap rm =>
                  cases hi : pyLookup rm id with
                  | some item => exact ⟨some item, by simp only [searchSubGroups, hq, hi]⟩
                  | none =>
                      obtain ⟨r, hr⟩ := ih hwf2
                      exact ⟨r, by simp only [searchSubGroups, hq, hi]; exact hr⟩
              | vstr s => simp [wfSubGroup, hq] at hwf1
              | vnat n => simp [wfSubGroup, hq] at hwf1
              | vlist l => simp [wfSubGroup, hq] at hwf1
          | none =>
              obtain ⟨r, hr⟩ := ih hwf2
              exact ⟨r, by simp only [searchSubGroups, hq]; exact hr⟩
      | vstr s => simp [wfSubGroup] at hwf1
      | vnat n => simp [wfSubGroup] at hwf1
      | vlist l => simp [wfSubGroup] at hwf1

theorem searchPR_wf_ok (id : String) :
    ∀ gs, wfPRGroups gs = true → ∃ r, searchPR id gs = .ok r := by
  intro gs
  induction gs with
  | nil => intro _; exact ⟨none, rfl⟩
  | cons p rest ih =>
      obtain ⟨gk, g⟩ := p
      intro hwf
      simp only [wfPRGroups, List.all_cons, Bool.and_eq_true] at hwf
      obtain ⟨hwf1, hwf2⟩ := hwf
      cases g with
      | vmap gm =>
          cases hq : pyLookup gm "requirements" with
          | some inner =>
              cases inner with
              | vmap children =>
                  cases han : anyNestedReq children with
                  | true =>
                      have hwfs : wfSubGroups children = true := by
                        simpa [wfPRGroup, hq, han] using hwf1
                      obtain ⟨r0, hr0⟩ := searchSubGroups_wf_ok id children hwfs
                      cases r0 with
                      | some item =>
                          exact ⟨some item, by simp only [searchPR, hq, han, if_pos, hr0]⟩
                      | none =>
                          obtain ⟨r, hr⟩ := ih hwf2
                          exact ⟨r, by simp only [searchPR, hq, han, if_pos, hr0]; exact hr⟩
                  | false =>
                      cases hi : pyLookup children id with
                      | some item =>
                          exact ⟨some item, by
                            simp only [searchPR, hq, han, Bool.false_eq_true, if_false, hi]⟩
                      | none =>
                          obtain ⟨r, hr⟩ := ih hwf2
                          exact ⟨r, by
                            simp only [searchPR, hq, han, Bool.false_eq_true, if_false, hi]
                            exact hr⟩
              | vstr s => simp [wfPRGroup, hq] at hwf1
              | vnat n => simp [wfPRGroup, hq] at hwf1
              | vlist l => simp [wfPRGroup, hq] at hwf1
          | none =>
              obtain ⟨r, hr⟩ := ih hwf2
              exact ⟨r, by simp only [searchPR, hq]; exact hr⟩
      | vstr s => simp [wfPRGroup] at hwf1
      | vnat n => simp [wfPRGroup] at hwf1
      | vlist l => simp [wfPRGroup] at hwf1

theorem searchSpecs_wf_ok (id : String) :
    ∀ gs, wfSpecGroups gs = true → ∃ r, searchSpecs id gs = .ok r := by
  intro gs
  induction gs with
  | nil => intro _; exact ⟨none, rfl⟩
  | cons p rest ih =>
      obtain ⟨gk, g⟩ := p
      intro hwf
      simp only [wfSpecGroups, List.all_cons, Bool.and_eq_true] at hwf
      obtain ⟨hwf1, hwf2⟩ := hwf
      cases g with
      | vmap gm =>
          cases hq : pyLookup gm "specifications" with
          | some inner =>
              cases inner with
              | vmap sm =>
                  cases hi : pyLookup sm id with
                  | some item => exact ⟨some item, by simp only [searchSpecs, hq, hi]⟩
                  | none =>
                      obtain ⟨r, hr⟩ := ih hwf2
                      exact ⟨r, by simp only [searchSpecs, hq, hi]; exact hr⟩
              | vstr s => simp [wfSpecGroup, hq] at hwf1
              | vnat n => simp [wfSpecGroup, hq] at hwf1
              | vlist l => simp [wfSpecGroup, hq] at hwf1
          | none =>
              obtain ⟨r, hr⟩ := ih hwf2
              exact ⟨r, by simp only [searchSpecs, hq]; exact hr⟩
      | vstr s => simp [wfSpecGroup] at hwf1
      | vnat n => simp [wfSpecGroup] at hwf1
      | vlist l => simp [wfSpecGroup] at hwf1

/-- C9 (amended): `get_item_by_id` never raises on documents satisfying
`wfDoc`: absent category keys default to empty, and malformed group
entries of *any* type are skipped in `user_needs`/`risks`; in the last
three categories a group entry must be a dict with dict-shaped nested
maps — a non-container entry there raises (see the counterexample). -/
theorem get_item_by_id_wf_no_raise (d : Doc) (hwf : wfDoc d = true) (id : String) :
    ∃ r, get_item_by_id d id = .ok r := by
  simp only [wfDoc, Bool.and_eq_true] at hwf
  obtain ⟨⟨⟨⟨h1, h2⟩, h3⟩, h4⟩, h5⟩ := hwf
  cases hg1 : pyGetD d "user_needs" with
  | vmap un =>
      rw [hg1] at h1
      obtain ⟨r1, hr1⟩ := searchFlat2_wf_ok "needs" id un h1
      cases hg2 : pyGetD d "risks" with
      | vmap rk =>
          rw [hg2] at h2
          obtain ⟨r2, hr2⟩ := searchFlat2_wf_ok "risks" id rk h2
          cases hg3 : pyGetD d "product_requirements" with
          | vmap prs =>
              rw [hg3] at h3
              obtain ⟨r3, hr3⟩ := searchPR_wf_ok id prs h3
              cases hg4 : pyGetD d "software_specifications" with
              | vmap sw =>
                  rw [hg4] at h4
                  obtain ⟨r4, hr4⟩ := searchSpecs_wf_ok id sw h4
                  cases hg5 : pyGetD d "hardware_specifications" with
                  | vmap hw =>
                      rw [hg5] at h5
                      obtain ⟨r5, hr5⟩ := searchSpecs_wf_ok id hw h5
                      have ham1 : asMap (pyGetD d "user_needs") = .ok un := by
                        rw [hg1]; rfl
                      have ham2 : asMap (pyGetD d "risks") = .ok rk := by
                        rw [hg2]; rfl
                      have ham3 : asMap (pyGetD d "product_requirements") = .ok prs := by
                        rw [hg3]; rfl
                      have ham4 : asMap (pyGetD d "software_specifications") = .ok sw := by
                        rw [hg4]; rfl
                      have ham5 : asMap (pyGetD d "hardware_specifications") = .ok hw := by
                        rw [hg5]; rfl
                      cases r1 with
                      | some item =>
                          exact ⟨some item, by simp only [get_item_by_id, ham1, hr1]⟩
                      | none =>
                      cases r2 with
                      | some item =>
                          exact ⟨some item, by
                            simp only [get_item_by_id, ham1, hr1, ham2, hr2]⟩
                      | none =>
                      cases r3 with
                      | some item =>
                          exact ⟨some item, by
                            simp only [get_item_by_id, ham1, hr1, ham2, hr2, ham3, hr3]⟩
                      | none =>
                      cases r4 with
                      | some item =>
                          exact ⟨some item, by
                            simp only [get_item_by_id, ham1, hr1, ham2, hr2, ham3, hr3,
                              ham4, hr4]⟩
                      | none =>
                      cases r5 with
                      | some item =>
                          exact ⟨some item, by
                            simp only [get_item_by_id, ham1, hr1, ham2, hr2, ham3, hr3,
                              ham4, hr4, ham5, hr5]⟩
                      | none =>
                          exact ⟨none, by
                            simp only [get_item_by_id, ham1, hr1, ham2, hr2, ham3, hr3,
                              ham4, hr4, ham5, hr5]⟩
                  | vstr s => rw [hg5] at h5; cases h5
                  | vnat n => rw [hg5] at h5; cases h5
                  | vlist l => rw [hg5] at h5; cases h5
              | vstr s => rw [hg4] at h4; cases h4
              | vnat n => rw [hg4] at h4; cases h4
              | vlist l => rw [hg4] at h4; cases h4
          | vstr s => rw [hg3] at h3; cases h3
          | vnat n => rw [hg3] at h3; cases h3
          | vlist l => rw [hg3] at h3; cases h3
      | vstr s => rw [hg2] at h2; cases h2
      | vnat n => rw [hg2] at h2; cases h2
      | vlist l => rw [hg2] at h2; cases h2
  | vstr s => rw [hg1] at h1; cases h1
  | vnat n => rw [hg1] at h1; cases h1
  | vlist l => rw [hg1] at h1; cases h1

/-! ## Lemmas and main theorem for claim C4 -/


theorem collectLinked_mem (needId rid : String) (rm : List (String × Val)) :
    ∀ children res, collectLinked needId children = .ok res →
      (rid, .vmap rm) ∈ children →
      pyIn needId ((pyLookup rm "linked_user_needs").getD (.vlist [])) = .ok true →
      rid ∈ res.map Prod.fst := by
  intro children
  induction children with
  | nil => intro res _ hmem _; cases hmem
  | cons p rest ih =>
      obtain ⟨rid0, req0⟩ := p
      intro res hok hmem hlink
      rcases List.mem_cons.mp hmem with heq | hmem'
      · rw [Prod.mk.injEq] at heq
        obtain ⟨h1, h2⟩ := heq
        subst h1
        rw [← h2] at hok
        simp only [collectLinked, hlink] at hok
        cases hr : collectLinked needId rest with
        | error e => rw [hr] at hok; cases hok
        | ok tail =>
            rw [hr] at hok
            cases hok
            simp
      · cases req0 with
        | vmap rm0 =>
            cases hb : pyIn needId ((pyLookup rm0 "linked_user_needs").getD (.vlist [])) with
            | error e => exfalso; simp only [collectLinked, hb] at hok; cases hok
            | ok b =>
                cases b with
                | true =>
                    simp only [collectLinked, hb] at hok
                    cases hr : collectLinked needId rest with
                    | error e => rw [hr] at hok; cases hok
                    | ok tail =>
                        rw [hr] at hok
                        cases hok
                        simp only [List.map_cons, List.mem_cons]
                        exact Or.inr (ih tail hr hmem' hlink)
                | false =>
                    simp only [collectLinked, hb] at hok
                    exact ih res hok hmem' hlink
        | vstr s => exfalso; simp only [collectLinked] at hok; cases hok
        | vnat n => exfalso; simp only [collectLinked] at hok; cases hok
        | vlist l => exfalso; simp only [collectLinked] at hok; cases hok

theorem collectLinkedSub_mem (needId rid : String) (rm : List (String × Val)) :
    ∀ children res, collectLinkedSub needId children = .ok res →
      (rid, .vmap rm) ∈ subLeaves children →
      pyIn needId ((pyLookup rm "linked_user_needs").getD (.vlist [])) = .ok true →
      rid ∈ res.map Prod.fst := by
  intro children
  induction children with
  | nil => intro res _ hmem _; cases hmem
  | cons p rest ih =>
      obtain ⟨sk, sg⟩ := p
      intro res hok hmem hlink
      cases sg with
      | vmap sm =>
          cases hq : pyLookup sm "requirements" with
          | some inner =>
              cases inner with
              | vmap rm0 =>
                  have hleaves : subLeaves ((sk, .vmap sm) :: rest)
                      = rm0 ++ subLeaves rest := by
                    simp [subLeaves, hq]
                  rw [hleaves] at hmem
                  simp only [collectLinkedSub, hq] at hok
                  cases hc : collectLinked needId rm0 with
                  | error e => rw [hc] at hok; cases hok
                  | ok here =>
                      rw [hc] at hok
                      cases hr : collectLinkedSub needId rest with
                      | error e => rw [hr] at hok; cases hok
                      | ok tail =>
                          rw [hr] at hok
                          cases hok
                          rw [List.map_append]
                          rcases List.mem_append.mp hmem with hm | hm
                          · exact List.mem_append.mpr
                              (Or.inl (collectLinked_mem needId rid rm rm0 here hc hm hlink))
                          · exact List.mem_append.mpr (Or.inr (ih tail hr hm hlink))
              | vstr s => exfalso; simp only [collectLinkedSub, hq] at hok; cases hok
              | vnat n => exfalso; simp only [collectLinkedSub, hq] at hok; cases hok
              | vlist l => exfalso; simp only [collectLinkedSub, hq] at hok; cases hok
          | none =>
              have hleaves : subLeaves ((sk, .vmap sm) :: rest) = subLeaves rest := by
                simp [subLeaves, hq]
              rw [hleaves] at hmem
              simp only [collectLinkedSub, hq] at hok
              exact ih res hok hmem hlink
      | vstr s =>
          have hleaves : subLeaves ((sk, .vstr s) :: rest) = subLeaves rest := by
            simp [subLeaves]
          rw [hleaves] at hmem
          cases hb : pyIn "requirements" (.vstr s) with
          | error e => exfalso; simp only [collectLinkedSub, hb] at hok; cases hok
          | ok b =>
              cases b with
              | true => exfalso; simp only [collectLinkedSub, hb] at hok; cases hok
              | false =>
                  simp only [collectLinkedSub, hb] at hok
                  exact ih res hok hmem hlink
      | vnat n =>
          exfalso; simp only [collectLinkedSub, pyIn] at hok; cases hok
      | vlist l =>
          have hleaves : subLeaves ((sk, .vlist l) :: rest) = subLeaves rest := by
            simp [subLeaves]
          rw [hleaves] at hmem
          cases hb : pyIn "requirements" (.vlist l) with
          | error e => exfalso; simp only [collectLinkedSub, hb] at hok; cases hok
          | ok b =>
              cases b with
              | true => exfalso; simp only [collectLinkedSub, hb] at hok; cases hok
              | false =>
                  simp only [collectLinkedSub, hb] at hok
                  exact ih res hok hmem hlink

theorem linkedReqsGroups_mem (needId rid : String) (rm : List (String × Val)) :
    ∀ gs res, linkedReqsGroups needId gs = .ok res →
      (rid, .vmap rm) ∈ prLeaves gs →
      pyIn needId ((pyLookup rm "linked_user_needs").getD (.vlist [])) = .ok true →
      rid ∈ res.map Prod.fst := by
  intro gs
  induction gs with
  | nil => intro res _ hmem _; cases hmem
  | cons p rest ih =>
      obtain ⟨gk, g⟩ := p
      intro res hok hmem hlink
      have hsplit : prLeaves ((gk, g) :: rest) = groupLeaves g ++ prLeaves rest := rfl
      rw [hsplit] at hmem
      cases g with
      | vmap gm =>
          cases hq : pyLookup gm "requirements" with
          | some inner =>
              cases inner with
              | vmap children =>
                  have hgl : groupLeaves (Val.vmap gm)
                      = if anyNestedReq children then subLeaves children else children := by
                    simp [groupLeaves, hq]
                  rw [hgl] at hmem
                  simp only [linkedReqsGroups, hq] at hok
                  cases han : anyNestedReq children with
                  | true =>
                      rw [han] at hok hmem
                      simp only [if_true] at hok hmem
                      cases hc : collectLinkedSub needId children with
                      | error e => rw [hc] at hok; cases hok
                      | ok here =>
                          rw [hc] at hok
                          cases hr : linkedReqsGroups needId rest with
                          | error e => rw [hr] at hok; cases hok
                          | ok tail =>
                              rw [hr] at hok
                              cases hok
                              rw [List.map_append]
                              rcases List.mem_append.mp hmem with hm | hm
                              · exact List.mem_append.mpr (Or.inl
                                  (collectLinkedSub_mem needId rid rm children here hc hm hlink))
                              · exact List.mem_append.mpr (Or.inr (ih tail hr hm hlink))
                  | false =>
                      rw [han] at hok hmem
                      simp only [Bool.false_eq_true, if_false] at hok hmem
                      cases hc : collectLinked needId children with
                      | error e => rw [hc] at hok; cases hok
                      | ok here =>
                          rw [hc] at hok
                          cases hr : linkedReqsGroups needId rest with
                          | error e => rw [hr] at hok; cases hok
                          | ok tail =>
                              rw [hr] at hok
                              cases hok
                              rw [List.map_append]
                              rcases List.mem_append.mp hmem with hm | hm
                              · exact List.mem_append.mpr (Or.inl
                                  (collectLinked_mem needId rid rm children here hc hm hlink))
                              · exact List.mem_append.mpr (Or.inr (ih tail hr hm hlink))
              | vstr s => exfalso; simp only [linkedReqsGroups, hq] at hok; cases hok
              | vnat n => exfalso; simp only [linkedReqsGroups, hq] at hok; cases hok
              | vlist l => exfalso; simp only [linkedReqsGroups, hq] at hok; cases hok
          | none =>
              have hgl : groupLeaves (Val.vmap gm) = [] := by simp [groupLeaves, hq]
              rw [hgl, List.nil_append] at hmem
              simp only [linkedReqsGroups, hq] at hok
              exact ih res hok hmem hlink
      | vstr s =>
          have hgl : groupLeaves (Val.vstr s) = [] := by simp [groupLeaves]
          rw [hgl, List.nil_append] at hmem
          cases hb : pyIn "requirements" (.vstr s) with
          | error e => exfalso; simp only [linkedReqsGroups, hb] at hok; cases hok
          | ok b =>
              cases b with
              | true => exfalso; simp only [linkedReqsGroups, hb] at hok; cases hok
              | false =>
                  simp only [linkedReqsGroups, hb] at hok
                  exact ih res hok hmem hlink
      | vnat n =>
          exfalso; simp only [linkedReqsGroups, pyIn] at hok; cases hok
      | vlist l =>
          have hgl : groupLeaves (Val.vlist l) = [] := by simp [groupLeaves]
          rw [hgl, List.nil_append] at hmem
          cases hb : pyIn "requirements" (.vlist l) with
          | error e => exfalso; simp only [linkedReqsGroups, hb] at hok; cases hok
          | ok b =>
              cases b with
              | true => exfalso; simp only [linkedReqsGroups, hb] at hok; cases hok
              | false =>
                  simp only [linkedReqsGroups, hb] at hok
                  exact ih res hok hmem hlink

theorem entriesForNeeds_mem (d : Doc) (nid : String) (nv : Val) :
    ∀ needs here, entriesForNeeds d needs = .ok here → (nid, nv) ∈ needs →
      ∃ e, e ∈ here ∧ needEntry d nid nv = .ok e := by
  intro needs
  induction needs with
  | nil => intro here _ hmem; cases hmem
  | cons p rest ih =>
      obtain ⟨nid0, nv0⟩ := p
      intro here hok hmem
      cases he : needEntry d nid0 nv0 with
      | error e => exfalso; simp only [entriesForNeeds, he] at hok; cases hok
      | ok e1 =>
          simp only [entriesForNeeds, he] at hok
          cases hr : entriesForNeeds d rest with
          | error e => rw [hr] at hok; cases hok
          | ok tail =>
              rw [hr] at hok
              cases hok
              rcases List.mem_cons.mp hmem with heq | hmem'
              · rw [Prod.mk.injEq] at heq
                obtain ⟨h1, h2⟩ := heq
                subst h1
                rw [h2]
                exact ⟨e1, List.mem_cons_self _ _, he⟩
              · obtain ⟨e, hm, hne⟩ := ih tail hr hmem'
                exact ⟨e, List.mem_cons_of_mem _ hm, hne⟩

theorem unToReqEntries_mem (d : Doc) (nid : String) (nv : Val) :
    ∀ un entries, unToReqEntries d un = .ok entries →
      ((∃ gk m needs, (gk, .vmap m) ∈ un ∧ pyLookup m "needs" = some (.vmap needs) ∧
          (nid, nv) ∈ needs) ∨
        ((nid, nv) ∈ un ∧ isDictWithKey "needs" nv = false)) →
      ∃ e, e ∈ entries ∧ needEntry d nid nv = .ok e := by
  intro un
  induction un with
  | nil =>
      intro entries _ hmem
      rcases hmem with ⟨gk, m, needs, hgrp, _, _⟩ | ⟨hm, _⟩
      · cases hgrp
      · cases hm
  | cons p rest ih =>
      obtain ⟨gk0, gv0⟩ := p
      intro entries hok hmem
      cases gv0 with
      | vmap m0 =>
          cases hq : pyLookup m0 "needs" with
          | some inner =>
              cases inner with
              | vmap needs0 =>
                  simp only [unToReqEntries, hq] at hok
                  cases hn : entriesForNeeds d needs0 with
                  | error e => rw [hn] at hok; cases hok
                  | ok here =>
                      rw [hn] at hok
                      cases hr : unToReqEntries d rest with
                      | error e => rw [hr] at hok; cases hok
                      | ok tail =>
                          rw [hr] at hok
                          cases hok
                          rcases hmem with ⟨gk, m, needs, hgrp, hneeds, hmemn⟩ | ⟨hm, hshape⟩
                          · rcases List.mem_cons.mp hgrp with heq | hgrp'
                            · rw [Prod.mk.injEq] at heq
                              obtain ⟨h1, h2⟩ := heq
                              have h2' : m = m0 := Val.vmap.inj h2
                              subst h2'
                              rw [hq] at hneeds
                              have hn0 : needs = needs0 :=
                                (Val.vmap.inj (Option.some.inj hneeds)).symm
                              rw [hn0] at hmemn
                              obtain ⟨e, hm1, hne⟩ :=
                                entriesForNeeds_mem d nid nv needs0 here hn hmemn
                              exact ⟨e, List.mem_append.mpr (Or.inl hm1), hne⟩
                            · obtain ⟨e, hm1, hne⟩ := ih tail hr
                                (Or.inl ⟨gk, m, needs, hgrp', hneeds, hmemn⟩)
                              exact ⟨e, List.mem_append.mpr (Or.inr hm1), hne⟩
                          · rcases List.mem_cons.mp hm with heq | hm'
                            · exfalso
                              rw [Prod.mk.injEq] at heq
                              obtain ⟨h1, h2⟩ := heq
                              rw [h2] at hshape
                              simp [isDictWithKey, hq] at hshape
                            · obtain ⟨e, hm1, hne⟩ := ih tail hr (Or.inr ⟨hm', hshape⟩)
                              exact ⟨e, List.mem_append.mpr (Or.inr hm1), hne⟩
              | vstr s => exfalso; simp only [unToReqEntries, hq] at hok; cases hok
              | vnat n => exfalso; simp only [unToReqEntries, hq] at hok; cases hok
              | vlist l => exfalso; simp only [unToReqEntries, hq] at hok; cases hok
          | none =>
              simp only [unToReqEntries, hq] at hok
              cases he : needEntry d gk0 (.vmap m0) with
              | error e => rw [he] at hok; cases hok
              | ok e1 =>
                  rw [he] at hok
                  cases hr : unToReqEntries d rest with
                  | error e => rw [hr] at hok; cases hok
                  | ok tail =>
                      rw [hr] at hok
                      cases hok
                      rcases hmem with ⟨gk, m, needs, hgrp, hneeds, hmemn⟩ | ⟨hm, hshape⟩
                      · rcases List.mem_cons.mp hgrp with heq | hgrp'
                        · exfalso
                          rw [Prod.mk.injEq] at heq
                          obtain ⟨h1, h2⟩ := heq
                          have h2' : m = m0 := Val.vmap.inj h2
                          subst h2'
                          rw [hq] at hneeds
                          cases hneeds
                        · obtain ⟨e, hm1, hne⟩ := ih tail hr
                            (Or.inl ⟨gk, m, needs, hgrp', hneeds, hmemn⟩)
                          exact ⟨e, List.mem_cons_of_mem _ hm1, hne⟩
                      · rcases List.mem_cons.mp hm with heq | hm'
                        · rw [Prod.mk.injEq] at heq
                          obtain ⟨h1, h2⟩ := heq
                          subst h1
                          rw [h2]
                          exact ⟨e1, List.mem_cons_self _ _, he⟩
                        · obtain ⟨e, hm1, hne⟩ := ih tail hr (Or.inr ⟨hm', hshape⟩)
                          exact ⟨e, List.mem_cons_of_mem _ hm1, hne⟩
      | vstr s =>
          simp only [unToReqEntries] at hok
          cases he : needEntry d gk0 (.vstr s) with
          | error e => rw [he] at hok; cases hok
          | ok e1 =>
              rw [he] at hok
              cases hr : unToReqEntries d rest with
              | error e => rw [hr] at hok; cases hok
              | ok tail =>
                  rw [hr] at hok
                  cases hok
                  rcases hmem with ⟨gk, m, needs, hgrp, hneeds, hmemn⟩ | ⟨hm, hshape⟩
                  · rcases List.mem_cons.mp hgrp with heq | hgrp'
                    · exfalso
                      rw [Prod.mk.injEq] at heq
                      cases heq.2
                    · obtain ⟨e, hm1, hne⟩ := ih tail hr
                        (Or.inl ⟨gk, m, needs, hgrp', hneeds, hmemn⟩)
                      exact ⟨e, List.mem_cons_of_mem _ hm1, hne⟩
                  · rcases List.mem_cons.mp hm with heq | hm'
                    · rw [Prod.mk.injEq] at heq
                      obtain ⟨h1, h2⟩ := heq
                      subst h1
                      rw [h2]
                      exact ⟨e1, List.mem_cons_self _ _, he⟩
                    · obtain ⟨e, hm1, hne⟩ := ih tail hr (Or.inr ⟨hm', hshape⟩)
                      exact ⟨e, List.mem_cons_of_mem _ hm1, hne⟩
      | vnat n =>
          simp only [unToReqEntries] at hok
          cases he : needEntry d gk0 (.vnat n) with
          | error e => rw [he] at hok; cases hok
          | ok e1 =>
              rw [he] at hok
              cases hr : unToReqEntries d rest with
              | error e => rw [hr] at hok; cases hok
              | ok tail =>
                  rw [hr] at hok
                  cases hok
                  rcases hmem with ⟨gk, m, needs, hgrp, hneeds, hmemn⟩ | ⟨hm, hshape⟩
                  · rcases List.mem_cons.mp hgrp with heq | hgrp'
                    · exfalso
                      rw [Prod.mk.injEq] at heq
                      cases heq.2
                    · obtain ⟨e, hm1, hne⟩ := ih tail hr
                        (Or.inl ⟨gk, m, needs, hgrp', hneeds, hmemn⟩)
                      exact ⟨e, List.mem_cons_of_mem _ hm1, hne⟩
                  · rcases List.mem_cons.mp hm with heq | hm'
                    · rw [Prod.mk.injEq] at heq
                      obtain ⟨h1, h2⟩ := heq
                      subst h1
                      rw [h2]
                      exact ⟨e1, List.mem_cons_self _ _, he⟩
                    · obtain ⟨e, hm1, hne⟩ := ih tail hr (Or.inr ⟨hm', hshape⟩)
                      exact ⟨e, List.mem_cons_of_mem _ hm1, hne⟩
      | vlist l =>
          simp only [unToReqEntries] at hok
          cases he : needEntry d gk0 (.vlist l) with
          | error e => rw [he] at hok; cases hok
          | ok e1 =>
              rw [he] at hok
              cases hr : unToReqEntries d rest with
              | error e => rw [hr] at hok; cases hok
              | ok tail =>
                  rw [hr] at hok
                  cases hok
                  rcases hmem with ⟨gk, m, needs, hgrp, hneeds, hmemn⟩ | ⟨hm, hshape⟩
                  · rcases List.mem_cons.mp hgrp with heq | hgrp'
                    · exfalso
                      rw [Prod.mk.injEq] at heq
                      cases heq.2
                    · obtain ⟨e, hm1, hne⟩ := ih tail hr
                        (Or.inl ⟨gk, m, needs, hgrp', hneeds, hmemn⟩)
                      exact ⟨e, List.mem_cons_of_mem _ hm1, hne⟩
                  · rcases List.mem_cons.mp hm with heq | hm'
                    · rw [Prod.mk.injEq] at heq
                      obtain ⟨h1, h2⟩ := heq
                      subst h1
                      rw [h2]
                      exact ⟨e1, List.mem_cons_self _ _, he⟩
                    · obtain ⟨e, hm1, hne⟩ := ih tail hr (Or.inr ⟨hm', hshape⟩)
                      exact ⟨e, List.mem_cons_of_mem _ hm1, hne⟩

/-- C4: the user-needs-to-requirements traceability view contains, for
every stored user need (nested or legacy-flat) and every leaf product
requirement at a supported depth whose `linked_user_needs` contains that
need's id, an entry whose `user_need.id` is the need's id and whose
requirements list contains the requirement's id. -/
theorem api_un_to_req_contains (d : Doc) (nid : String) (nv : Val)
    (rid : String) (rm : List (String × Val))
    (un prs : List (String × Val)) (entries : List TraceEntry)
    (hun : asMap (pyGetD d "user_needs") = .ok un)
    (hapi : api_user_needs_to_requirements d = .ok entries)
    (hneed : (∃ gk m needs, (gk, .vmap m) ∈ un ∧ pyLookup m "needs" = some (.vmap needs) ∧
        (nid, nv) ∈ needs) ∨ ((nid, nv) ∈ un ∧ isDictWithKey "needs" nv = false))
    (hprs : asMap (pyGetD d "product_requirements") = .ok prs)
    (hleaf : (rid, .vmap rm) ∈ prLeaves prs)
    (hlink : pyIn nid ((pyLookup rm "linked_user_needs").getD (.vlist [])) = .ok true) :
    ∃ e, e ∈ entries ∧ e.needId = nid ∧ rid ∈ e.reqs.map Prod.fst := by
  have hun2 : unToReqEntries d un = .ok entries := by
    simpa [api_user_needs_to_requirements, hun] using hapi
  obtain ⟨e, hmem, hne⟩ := unToReqEntries_mem d nid nv un entries hun2 hneed
  simp only [needEntry, hprs] at hne
  cases hlg : linkedReqsGroups nid prs with
  | error e0 => rw [hlg] at hne; cases hne
  | ok res =>
      rw [hlg] at hne
      have hrid := linkedReqsGroups_mem nid rid rm prs res hlg hleaf hlink
      cases nv with
      | vmap nm =>
          cases hne
          exact ⟨_, hmem, rfl, hrid⟩
      | vstr s => cases hne
      | vnat n => cases hne
      | vlist l => cases hne

/-! ## Counterexamples and witnesses for the claims -/

/-- C1 counterexample: a product requirement stored flat (directly at
`product_requirements[id]`) is present in the document but `get_item_by_id`
does not find it — the flat shape named in the claim is unsupported. -/
theorem get_item_by_id_misses_flat_pr :
    pyLookup [("PR001", Val.vmap [("title", .vstr "x")])] "PR001"
      = some (.vmap [("title", .vstr "x")]) ∧
    get_item_by_id [("product_requirements",
        .vmap [("PR001", .vmap [("title", .vstr "x")])])] "PR001" = .ok none :=
  ⟨rfl, rfl⟩

/-- C1 witness: in a document where a 2-level and a 3-level group coexist,
the 3-level leaf `PR2` is found, through exactly one path. -/
theorem get_item_by_id_finds_pr_leaf_witness :
    get_item_by_id [("product_requirements", .vmap [
        ("G1", .vmap [("requirements", .vmap [("PR1", .vmap [("title", .vstr "a")])])]),
        ("G2", .vmap [("requirements", .vmap [("SG1", .vmap [("requirements",
          .vmap [("PR2", .vmap [("title", .vstr "b")])])])])])])] "PR2"
      = .ok (some (.vmap [("title", .vstr "b")])) ∧
    ((prLeaves [
        ("G1", .vmap [("requirements", .vmap [("PR1", .vmap [("title", .vstr "a")])])]),
        ("G2", .vmap [("requirements", .vmap [("SG1", .vmap [("requirements",
          .vmap [("PR2", .vmap [("title", .vstr "b")])])])])])]).map Prod.fst).count "PR2"
      = 1 :=
  get_item_by_id_finds_pr_leaf
    [("product_requirements", .vmap [
      ("G1", .vmap [("requirements", .vmap [("PR1", .vmap [("title", .vstr "a")])])]),
      ("G2", .vmap [("requirements", .vmap [("SG1", .vmap [("requirements",
        .vmap [("PR2", .vmap [("title", .vstr "b")])])])])])])]
    "PR2" (.vmap [("title", .vstr "b")]) [] []
    [("G1", .vmap [("requirements", .vmap [("PR1", .vmap [("title", .vstr "a")])])]),
     ("G2", .vmap [("requirements", .vmap [("SG1", .vmap [("requirements",
       .vmap [("PR2", .vmap [("title", .vstr "b")])])])])])]
    rfl rfl rfl rfl rfl rfl (by decide)
    (List.Mem.tail _ (List.Mem.head _))

/-- C2 counterexample: a patch carrying the marker key `requirements`
succeeds but flips the group's shape detection to 3-level, after which the
updated requirement can no longer be resolved. -/
theorem update_item_marker_patch_breaks_resolve :
    update_item [("product_requirements", .vmap [("G1", .vmap [("requirements",
        .vmap [("PR1", .vmap [("title", .vstr "t")])])])])] "PR1"
        [("requirements", .vmap [])]
      = .ok (true, [("product_requirements", .vmap [("G1", .vmap [("requirements",
        .vmap [("PR1", .vmap [("title", .vstr "t"), ("requirements", .vmap [])])])])])]) ∧
    get_item_by_id [("product_requirements", .vmap [("G1", .vmap [("requirements",
        .vmap [("PR1", .vmap [("title", .vstr "t")])])])])] "PR1"
      = .ok (some (.vmap [("title", .vstr "t")])) ∧
    get_item_by_id [("product_requirements", .vmap [("G1", .vmap [("requirements",
        .vmap [("PR1", .vmap [("title", .vstr "t"), ("requirements", .vmap [])])])])])] "PR1"
      = .ok none :=
  ⟨rfl, rfl, rfl⟩

/-- C2 witness: a title-only patch on a 2-level requirement merges
field-wise and is resolved back after the update. -/
theorem update_item_then_get_merged_witness :
    update_item [("product_requirements", .vmap [("G1", .vmap [("requirements",
        .vmap [("PR1", .vmap [("title", .vstr "t"), ("description", .vstr "d")])])])])]
        "PR1" [("title", .vstr "new")]
      = .ok (true, [("product_requirements", .vmap [("G1", .vmap [("requirements",
        .vmap [("PR1", .vmap [("title", .vstr "new"), ("description", .vstr "d")])])])])]) ∧
    (∃ orig,
      get_item_by_id [("product_requirements", .vmap [("G1", .vmap [("requirements",
          .vmap [("PR1", .vmap [("title", .vstr "t"), ("description", .vstr "d")])])])])]
          "PR1" = .ok (some (.vmap orig)) ∧
      get_item_by_id [("product_requirements", .vmap [("G1", .vmap [("requirements",
          .vmap [("PR1", .vmap [("title", .vstr "new"), ("description", .vstr "d")])])])])]
          "PR1" = .ok (some (.vmap (pyUpdateMap orig [("title", .vstr "new")]))) ∧
      (∀ k v, pyLookup [("title", Val.vstr "new")] k = some v →
        pyLookup (pyUpdateMap orig [("title", .vstr "new")]) k = some v) ∧
      (∀ k, pyLookup [("title", Val.vstr "new")] k = none →
        pyLookup (pyUpdateMap orig [("title", .vstr "new")]) k = pyLookup orig k)) :=
  ⟨rfl, update_item_then_get_merged
    [("product_requirements", .vmap [("G1", .vmap [("requirements",
      .vmap [("PR1", .vmap [("title", .vstr "t"), ("description", .vstr "d")])])])])]
    "PR1" [("title", .vstr "new")]
    [("product_requirements", .vmap [("G1", .vmap [("requirements",
      .vmap [("PR1", .vmap [("title", .vstr "new"), ("description", .vstr "d")])])])])]
    rfl (by decide) (by decide) (by decide) (by decide)⟩

/-- C3 witness: a two-group grouped document flattens to the same mapping a
legacy flat document with the same two risks stores. -/
theorem get_risks_flat_grouped_eq_legacy_witness :
    allGroupedRisks [
        ("G1", .vmap [("risks", .vmap [("R1", .vmap [("title", .vstr "r")])])]),
        ("G2", .vmap [("risks", .vmap [("R2", .vmap [("title", .vstr "s")])])])] = true ∧
    (get_risks_flat [("risks", .vmap [
        ("G1", .vmap [("risks", .vmap [("R1", .vmap [("title", .vstr "r")])])]),
        ("G2", .vmap [("risks", .vmap [("R2", .vmap [("title", .vstr "s")])])])])]
      = .ok (flatOfGroups [
        ("G1", .vmap [("risks", .vmap [("R1", .vmap [("title", .vstr "r")])])]),
        ("G2", .vmap [("risks", .vmap [("R2", .vmap [("title", .vstr "s")])])])]) ∧
    get_risks_flat [("risks", .vmap (flatOfGroups [
        ("G1", .vmap [("risks", .vmap [("R1", .vmap [("title", .vstr "r")])])]),
        ("G2", .vmap [("risks", .vmap [("R2", .vmap [("title", .vstr "s")])])])]))]
      = .ok (flatOfGroups [
        ("G1", .vmap [("risks", .vmap [("R1", .vmap [("title", .vstr "r")])])]),
        ("G2", .vmap [("risks", .vmap [("R2", .vmap [("title", .vstr "s")])])])])) :=
  ⟨rfl, get_risks_flat_grouped_eq_legacy [
      ("G1", .vmap [("risks", .vmap [("R1", .vmap [("title", .vstr "r")])])]),
      ("G2", .vmap [("risks", .vmap [("R2", .vmap [("title", .vstr "s")])])])]
    rfl (by decide) rfl⟩

/-- C4 witness: the claim's concrete scenario — `user_needs.G1.needs.UN001`
and `product_requirements.G2.requirements.PR001` linked to `UN001` yield
exactly one entry pairing `UN001` with `PR001`. -/
theorem api_un_to_req_contains_witness :
    api_user_needs_to_requirements [
        ("user_needs", .vmap [("G1", .vmap [("needs",
          .vmap [("UN001", .vmap [("title", .vstr "Need one")])])])]),
        ("product_requirements", .vmap [("G2", .vmap [("requirements",
          .vmap [("PR001", .vmap [("title", .vstr "Req one"),
            ("linked_user_needs", .vlist [.vstr "UN001"])])])])])]
      = .ok [⟨"UN001", .vstr "Need one", [("PR001", .vstr "Req one")]⟩] ∧
    (∃ e, e ∈ [(⟨"UN001", .vstr "Need one", [("PR001", .vstr "Req one")]⟩ : TraceEntry)] ∧
      e.needId = "UN001" ∧ "PR001" ∈ e.reqs.map Prod.fst) :=
  ⟨rfl, api_un_to_req_contains
    [("user_needs", .vmap [("G1", .vmap [("needs",
        .vmap [("UN001", .vmap [("title", .vstr "Need one")])])])]),
     ("product_requirements", .vmap [("G2", .vmap [("requirements",
        .vmap [("PR001", .vmap [("title", .vstr "Req one"),
          ("linked_user_needs", .vlist [.vstr "UN001"])])])])])]
    "UN001" (.vmap [("title", .vstr "Need one")]) "PR001"
    [("title", .vstr "Req one"), ("linked_user_needs", .vlist [.vstr "UN001"])]
    [("G1", .vmap [("needs", .vmap [("UN001", .vmap [("title", .vstr "Need one")])])])]
    [("G2", .vmap [("requirements", .vmap [("PR001", .vmap [("title", .vstr "Req one"),
      ("linked_user_needs", .vlist [.vstr "UN001"])])])])]
    [⟨"UN001", .vstr "Need one", [("PR001", .vstr "Req one")]⟩]
    rfl rfl
    (Or.inl ⟨"G1", [("needs", .vmap [("UN001", .vmap [("title", .vstr "Need one")])])],
      [("UN001", .vmap [("title", .vstr "Need one")])],
      List.Mem.head _, rfl, List.Mem.head _⟩)
    rfl (List.Mem.head _) rfl⟩

/-- C5 counterexample: for `probability_occurrence`, the code uses the
prefix `"P"` and returns `"P1"` on a mapping whose only key is `PO1`,
whereas the claim's stated id format (`PO` prefix, numeric suffix after the
prefix, max + 1) yields `"PO2"`. -/
theorem add_config_option_prefix_mismatch :
    add_config_option [("configuration", .vmap [("probability_occurrence_mapping",
        .vmap [("PO1", .vmap [("name", .vstr "Low")])])])]
        "probability_occurrence" "X" ""
      = .ok ("P1", [("configuration", .vmap [("probability_occurrence_mapping",
        .vmap [("PO1", .vmap [("name", .vstr "Low")]),
          ("P1", .vmap [("name", .vstr "X"),
            ("description", .vstr "X option for probability_occurrence")])])])]) ∧
    claimNextConfigId "PO" [("PO1", .vmap [("name", .vstr "Low")])] = "PO2" ∧
    ("P1" : String) ≠ "PO2" :=
  ⟨rfl, rfl, by decide⟩

/-- C5 witness: the claim's concrete scenario — adding a severity option to
a document whose severity ids are `{S1, S2, S3}` returns `"S4"` — and the
theorem's exact-next-id conclusion instantiated there. -/
theorem add_config_option_next_id_witness :
    add_config_option [("configuration", .vmap [("severity_mapping", .vmap [
        ("S1", .vmap [("name", .vstr "Low")]),
        ("S2", .vmap [("name", .vstr "Medium")]),
        ("S3", .vmap [("name", .vstr "High")])])])] "severity" "Critical" "Critical impact"
      = .ok ("S4", [("configuration", .vmap [("severity_mapping", .vmap [
        ("S1", .vmap [("name", .vstr "Low")]),
        ("S2", .vmap [("name", .vstr "Medium")]),
        ("S3", .vmap [("name", .vstr "High")]),
        ("S4", .vmap [("name", .vstr "Critical"),
          ("description", .vstr "Critical impact")])])])]) ∧
    (∀ k, k ∈ ([("S1", Val.vmap [("name", Val.vstr "Low")]),
        ("S2", Val.vmap [("name", Val.vstr "Medium")]),
        ("S3", Val.vmap [("name", Val.vstr "High")])].map Prod.fst) →
      ((if "severity" = "severity" then "S" else "P") : String).data.isPrefixOf k.data
        = true →
      k.data.drop 1 ≠ [] ∧ (k.data.drop 1).all Char.isDigit = true) ∧
    (∃ d' nxt, add_config_option [("configuration", .vmap [("severity_mapping", .vmap [
        ("S1", .vmap [("name", .vstr "Low")]),
        ("S2", .vmap [("name", .vstr "Medium")]),
        ("S3", .vmap [("name", .vstr "High")])])])] "severity" "Critical" "Critical impact"
        = .ok ((if "severity" = "severity" then "S" else "P") ++ toString nxt, d') ∧
      ((∀ k, k ∈ ([("S1", Val.vmap [("name", Val.vstr "Low")]),
          ("S2", Val.vmap [("name", Val.vstr "Medium")]),
          ("S3", Val.vmap [("name", Val.vstr "High")])].map Prod.fst) →
          ((if "severity" = "severity" then "S" else "P") : String).data.isPrefixOf k.data
            = false) → nxt = 1) ∧
      (∀ k n, k ∈ ([("S1", Val.vmap [("name", Val.vstr "Low")]),
          ("S2", Val.vmap [("name", Val.vstr "Medium")]),
          ("S3", Val.vmap [("name", Val.vstr "High")])].map Prod.fst) →
          ((if "severity" = "severity" then "S" else "P") : String).data.isPrefixOf k.data
            = true →
          parseInt (String.mk (k.data.drop 1)) = some n → n < nxt) ∧
      ((∃ k, k ∈ ([("S1", Val.vmap [("name", Val.vstr "Low")]),
          ("S2", Val.vmap [("name", Val.vstr "Medium")]),
          ("S3", Val.vmap [("name", Val.vstr "High")])].map Prod.fst) ∧
          ((if "severity" = "severity" then "S" else "P") : String).data.isPrefixOf k.data
            = true) →
        ∃ k, k ∈ ([("S1", Val.vmap [("name", Val.vstr "Low")]),
          ("S2", Val.vmap [("name", Val.vstr "Medium")]),
          ("S3", Val.vmap [("name", Val.vstr "High")])].map Prod.fst) ∧
          ((if "severity" = "severity" then "S" else "P") : String).data.isPrefixOf k.data
            = true ∧
          parseInt (String.mk (k.data.drop 1)) = some (nxt - 1))) :=
  ⟨rfl, by decide, add_config_option_next_id
    [("configuration", .vmap [("severity_mapping", .vmap [
      ("S1", .vmap [("name", .vstr "Low")]),
      ("S2", .vmap [("name", .vstr "Medium")]),
      ("S3", .vmap [("name", .vstr "High")])])])]
    "severity" "Critical" "Critical impact"
    [("severity_mapping", .vmap [
      ("S1", .vmap [("name", .vstr "Low")]),
      ("S2", .vmap [("name", .vstr "Medium")]),
      ("S3", .vmap [("name", .vstr "High")])])]
    [("S1", .vmap [("name", .vstr "Low")]),
     ("S2", .vmap [("name", .vstr "Medium")]),
     ("S3", .vmap [("name", .vstr "High")])]
    rfl rfl (by decide)⟩

/-- C6 counterexample: with legacy-flat risks, removing a severity option
that a risk references returns `False` and leaves the key in place — the
in-use check *is* enforced there, contradicting "deletes unconditionally". -/
theorem remove_config_option_blocked_when_in_use :
    pyLookup [("S1", Val.vmap [("name", .vstr "Low")])] "S1"
      = some (.vmap [("name", .vstr "Low")]) ∧
    remove_config_option [
        ("risks", .vmap [("R1", .vmap [("severity", .vstr "S1")])]),
        ("configuration", .vmap [("severity_mapping",
          .vmap [("S1", .vmap [("name", .vstr "Low")])])])] "severity" "S1"
      = .ok (false, [
        ("risks", .vmap [("R1", .vmap [("severity", .vstr "S1")])]),
        ("configuration", .vmap [("severity_mapping",
          .vmap [("S1", .vmap [("name", .vstr "Low")])])])]) :=
  ⟨rfl, rfl⟩

/-- C6 witness: with grouped risks the scan never fires, so a present key
is deleted (and an absent one reports `False`). -/
theorem remove_config_option_spec_witness :
    remove_config_option [
        ("risks", .vmap [("G1", .vmap [("risks",
          .vmap [("R1", .vmap [("severity", .vstr "S1")])])])]),
        ("configuration", .vmap [("severity_mapping", .vmap [
          ("S1", .vmap [("name", .vstr "Low")]),
          ("S2", .vmap [("name", .vstr "Med")])])])] "severity" "S1"
      = .ok (true, setKey [
          ("risks", .vmap [("G1", .vmap [("risks",
            .vmap [("R1", .vmap [("severity", .vstr "S1")])])])]),
          ("configuration", .vmap [("severity_mapping", .vmap [
            ("S1", .vmap [("name", .vstr "Low")]),
            ("S2", .vmap [("name", .vstr "Med")])])])]
          "configuration" (.vmap (setKey
            [("severity_mapping", .vmap [
              ("S1", .vmap [("name", .vstr "Low")]),
              ("S2", .vmap [("name", .vstr "Med")])])]
            ("severity" ++ "_mapping") (.vmap (delKey [
              ("S1", .vmap [("name", .vstr "Low")]),
              ("S2", .vmap [("name", .vstr "Med")])] "S1"))))) ∧
    pyLookup (delKey [
        ("S1", Val.vmap [("name", Val.vstr "Low")]),
        ("S2", Val.vmap [("name", Val.vstr "Med")])] "S1") "S1" = none :=
  ⟨((remove_config_option_spec [
      ("risks", .vmap [("G1", .vmap [("risks",
        .vmap [("R1", .vmap [("severity", .vstr "S1")])])])]),
      ("configuration", .vmap [("severity_mapping", .vmap [
        ("S1", .vmap [("name", .vstr "Low")]),
        ("S2", .vmap [("name", .vstr "Med")])])])] "severity" "S1"
      [("G1", .vmap [("risks", .vmap [("R1", .vmap [("severity", .vstr "S1")])])])]
      [("severity_mapping", .vmap [
        ("S1", .vmap [("name", .vstr "Low")]),
        ("S2", .vmap [("name", .vstr "Med")])])]
      [("S1", .vmap [("name", .vstr "Low")]),
       ("S2", .vmap [("name", .vstr "Med")])]
      rfl rfl rfl (by decide)).2.2
      (.vmap [("name", .vstr "Low")]) rfl rfl).1,
   ((remove_config_option_spec [
      ("risks", .vmap [("G1", .vmap [("risks",
        .vmap [("R1", .vmap [("severity", .vstr "S1")])])])]),
      ("configuration", .vmap [("severity_mapping", .vmap [
        ("S1", .vmap [("name", .vstr "Low")]),
        ("S2", .vmap [("name", .vstr "Med")])])])] "severity" "S1"
      [("G1", .vmap [("risks", .vmap [("R1", .vmap [("severity", .vstr "S1")])])])]
      [("severity_mapping", .vmap [
        ("S1", .vmap [("name", .vstr "Low")]),
        ("S2", .vmap [("name", .vstr "Med")])])]
      [("S1", .vmap [("name", .vstr "Low")]),
       ("S2", .vmap [("name", .vstr "Med")])]
      rfl rfl rfl (by decide)).2.2
      (.vmap [("name", .vstr "Low")]) rfl rfl).2.1⟩

/-- C7 counterexample: `str.replace` removes *every* occurrence of the
prefix, so `PO1PO2` scores as 12, while the claim's trailing-digits formula
(`claimRbmScore`, from the spec's words) gives 2. -/
theorem calculate_rbm_score_not_trailing_digits :
    calculate_rbm_score "PO1PO2" "PH1" "S1" = .ok 12 ∧
    claimRbmScore "PO1PO2" "PH1" "S1" = some 2 ∧ (12 : Int) ≠ 2 :=
  ⟨rfl, rfl, by decide⟩

/-- C7 witness: the claim's concrete scenario,
`calculate_rbm_score("PO2","PH3","S3") = 18`. -/
theorem calculate_rbm_score_wf_witness :
    RbmWellFormed "PO" "PO2" 2 ∧ RbmWellFormed "PH" "PH3" 3 ∧
    RbmWellFormed "S" "S3" 3 ∧
    calculate_rbm_score "PO2" "PH3" "S3" = .ok 18 :=
  ⟨Or.inl ⟨['2'], rfl, by decide, by decide, by decide⟩,
   Or.inl ⟨['3'], rfl, by decide, by decide, by decide⟩,
   Or.inl ⟨['3'], rfl, by decide, by decide, by decide⟩,
   by
    have h := calculate_rbm_score_wf "PO2" "PH3" "S3" 2 3 3
      (Or.inl ⟨['2'], rfl, by decide, by decide, by decide⟩)
      (Or.inl ⟨['3'], rfl, by decide, by decide, by decide⟩)
      (Or.inl ⟨['3'], rfl, by decide, by decide, by decide⟩)
    simpa using h⟩

/-- C9 counterexample: a non-container group entry in
`product_requirements` makes `get_item_by_id` raise a `TypeError` instead
of being skipped. -/
theorem get_item_by_id_raises_on_malformed_pr_group :
    get_item_by_id [("product_requirements", .vmap [("G1", .vnat 5)])] "X"
      = .error "TypeError: argument of type int is not iterable" :=
  rfl

/-- C9 witness: a document with a malformed (integer) `user_needs` group
entry is well-formed for the resolver, which completes without raising. -/
theorem get_item_by_id_wf_no_raise_witness :
    wfDoc [("user_needs", .vmap [
        ("G1", .vmap [("needs", .vmap [("UN1", .vmap [("title", .vstr "t")])])]),
        ("BAD", .vnat 5)]),
      ("product_requirements", .vmap [("G1", .vmap [("requirements",
        .vmap [("PR1", .vmap [("title", .vstr "a")])])])])] = true ∧
    (∃ r, get_item_by_id [("user_needs", .vmap [
        ("G1", .vmap [("needs", .vmap [("UN1", .vmap [("title", .vstr "t")])])]),
        ("BAD", .vnat 5)]),
      ("product_requirements", .vmap [("G1", .vmap [("requirements",
        .vmap [("PR1", .vmap [("title", .vstr "a")])])])])] "UN1" = .ok r) :=
  ⟨rfl, get_item_by_id_wf_no_raise [("user_needs", .vmap [
      ("G1", .vmap [("needs", .vmap [("UN1", .vmap [("title", .vstr "t")])])]),
      ("BAD", .vnat 5)]),
    ("product_requirements", .vmap [("G1", .vmap [("requirements",
      .vmap [("PR1", .vmap [("title", .vstr "a")])])])])] rfl "UN1"⟩

/-- C10 counterexample: a legacy-flat user need holding a plain string is
returned by `get_item_by_id` but makes `update_item` raise — it neither
returns `True` nor `False`. -/
theorem update_item_raises_where_get_succeeds :
    get_item_by_id [("user_needs", .vmap [("UN1", .vstr "hello")])] "UN1"
      = .ok (some (.vstr "hello")) ∧
    update_item [("user_needs", .vmap [("UN1", .vstr "hello")])] "UN1"
        [("title", .vstr "x")]
      = .error "AttributeError: object has no attribute update" :=
  ⟨rfl, rfl⟩

/-- C10 witness: on a found requirement the mutator returns `True` and the
resolver returns the item. -/
theorem update_item_agrees_get_item_witness :
    ∃ r, get_item_by_id [("product_requirements", .vmap [("G1", .vmap [("requirements",
        .vmap [("PR1", .vmap [("title", .vstr "t")])])])])] "PR1" = .ok r ∧
      true = r.isSome :=
  update_item_agrees_get_item
    [("product_requirements", .vmap [("G1", .vmap [("requirements",
      .vmap [("PR1", .vmap [("title", .vstr "t")])])])])]
    "PR1" [("description", .vstr "d")] true
    [("product_requirements", .vmap [("G1", .vmap [("requirements",
      .vmap [("PR1", .vmap [("title", .vstr "t"), ("description", .vstr "d")])])])])]
    rfl
